import Mathlib

/-!
Shallow embedding of the shiftmaster two-stage CP-SAT scheduler
(src/solver/base_solver.py, constraint_builder.py, stage1_solver.py,
stage2_solver.py).

Modelling conventions.  The CP-SAT Boolean decision grid `x[s, d, k]`
(staff index, day, shift index) is a valuation `Assignment`.  Each
posted model constraint is folded to its induced condition on the grid:
reified auxiliary booleans (the `is_working`, `sat_off`, `miss`,
`shortage`, `deviation` variables) are fully determined by the grid
through their defining reified equalities, so a constraint that mentions
them is expressed directly through those defining conditions.  Where the
source guards a reification behind `if off_vars:` and the guard fails,
the auxiliary variables are unconstrained and the posted constraint does
not restrict the grid; the folded constraint is the corresponding
constant.  A soft penalty term is folded to the pair of its value
expression (the minimal objective contribution the term can take at a
fixed grid) and its weight.  The external CP-SAT search is abstracted,
where needed, as an oracle that returns a model solution when one
exists.
-/

namespace ShiftMaster

/-- config/constants.py: `SHIFT_OFF = "-"` (regular rest day). -/
def SHIFT_OFF : String := "-"

/-- config/constants.py: `SHIFT_PUBLIC_OFF = "公"` (public-holiday rest day). -/
def SHIFT_PUBLIC_OFF : String := "公"

/-- Shift codes are opaque strings. -/
abbrev Shift := String

/-- Valuation of the Boolean decision grid `x[staff_idx, day, shift_idx]`. -/
abbrev Assignment := ℕ → ℕ → ℕ → Bool

/-- One posted model constraint, folded to its condition on the grid. -/
abbrev BConstraint := Assignment → Bool

/-- One objective penalty term: value expression and weight
(`BaseSolver.penalty_vars` entries). -/
abbrev Penalty := (Assignment → ℕ) × ℕ

/-- An assignment solves a model when it meets every posted constraint. -/
def Satisfies (x : Assignment) (m : List BConstraint) : Prop :=
  ∀ c ∈ m, c x = true

/-- base_solver.StaffInfo. -/
structure StaffInfo where
  name : String
  gender : String := "M"
  role : String := "staff"
  target_off : ℕ := 8
  nenkyu : ℕ := 0
  skills : List String := []
  prefer : String := ""

/-- StaffInfo.has_skill. -/
def StaffInfo.has_skill (st : StaffInfo) (skill : String) : Bool :=
  st.skills.contains skill

/-- StaffInfo.can_night. -/
def StaffInfo.can_night (st : StaffInfo) : Bool :=
  st.skills.contains ("NIGHT")

/-- StaffInfo.can_l1. -/
def StaffInfo.can_l1 (st : StaffInfo) : Bool :=
  st.skills.contains ("L1")

/-- base_solver.SolverInput.  Python dicts keyed by staff name / day are
association lists in insertion order. -/
structure SolverInput where
  year : ℕ
  month : ℕ
  num_days : ℕ
  staff_list : List StaffInfo
  day_shifts : List Shift
  night_shifts : List Shift
  closed_days : List ℕ := []
  requests : List (String × List (ℕ × Shift)) := []
  ng_shifts : List (String × List (ℕ × List Shift)) := []
  prev_history : List (String × List Shift) := []
  fixed_cells : List (String × List (ℕ × Shift)) := []
  required_shifts : List Shift := []

/-- Python dict lookup on an association list; repeated insertion of a
key makes the LAST binding win, as in a dict built by assignment. -/
def dictGet {α : Type} (l : List (String × α)) (k : String) : Option α :=
  ((l.filter (fun p => p.1 == k)).getLast?).map (fun p => p.2)

/-- The dict `{s: i for i, s in enumerate(all_shifts)}` maps each code to
the index of its LAST occurrence; `shiftToIdx` is its lookup, with
`none` for `code not in shift_to_idx`. -/
def shiftToIdx (all_shifts : List Shift) (s : Shift) : Option ℕ :=
  ((List.range all_shifts.length).filter
    (fun i => all_shifts.getD i "" == s)).getLast?

/-- The off-shift index pair `[shift_to_idx.get(SHIFT_OFF),
shift_to_idx.get(SHIFT_PUBLIC_OFF)]` with the `None` entries dropped. -/
def offIndicesOf (all_shifts : List Shift) : List ℕ :=
  ([shiftToIdx all_shifts SHIFT_OFF,
    shiftToIdx all_shifts SHIFT_PUBLIC_OFF]).filterMap id

/-- base_solver.BaseSolver.add_exactly_one_shift_per_day:
`AddExactlyOne(day_vars)` for every staff and day. -/
def addExactlyOneShiftPerDay (staff_list : List StaffInfo) (num_days : ℕ)
    (all_shifts : List Shift) : List BConstraint :=
  (List.range staff_list.length).flatMap (fun s =>
    (List.range' 1 num_days).map (fun d =>
      fun x => (List.range all_shifts.length).countP (fun k => x s d k) == 1))

/-- base_solver.BaseSolver.add_skill_constraints: staff lacking the
required skill of a mapped shift get `x[s,d,k] = 0`. -/
def addSkillConstraints (staff_list : List StaffInfo) (num_days : ℕ)
    (all_shifts : List Shift) (skill_map : List (Shift × String)) :
    List BConstraint :=
  staff_list.enum.flatMap (fun si =>
    (List.range' 1 num_days).flatMap (fun d =>
      (List.range all_shifts.length).flatMap (fun sh_idx =>
        match dictGet skill_map (all_shifts.getD sh_idx "") with
        | some required_skill =>
          if si.2.has_skill required_skill then []
          else [fun x => x si.1 d sh_idx == false]
        | none => [])))

/-- base_solver.BaseSolver.add_ng_constraints: declared NG shifts are
forced to 0 for days inside `[1, num_days]`. -/
def addNgConstraints (staff_list : List StaffInfo) (num_days : ℕ)
    (all_shifts : List Shift)
    (ng_shifts : List (String × List (ℕ × List Shift))) : List BConstraint :=
  staff_list.enum.flatMap (fun si =>
    ((dictGet ng_shifts si.2.name).getD []).flatMap (fun dl =>
      if 1 ≤ dl.1 ∧ dl.1 ≤ num_days then
        dl.2.flatMap (fun ng =>
          match shiftToIdx all_shifts ng with
          | some sh_idx => [fun x => x si.1 dl.1 sh_idx == false]
          | none => [])
      else []))

/-- base_solver.BaseSolver.add_request_soft_constraints: per explicit
request a reified `penalty` boolean with `penalty = 1 ⇔ x[s,d,k] = 0`,
weighted `weight`. -/
def addRequestSoftConstraints (staff_list : List StaffInfo) (num_days : ℕ)
    (all_shifts : List Shift) (requests : List (String × List (ℕ × Shift)))
    (weight : ℕ) : List Penalty :=
  staff_list.enum.flatMap (fun si =>
    ((dictGet requests si.2.name).getD []).flatMap (fun dr =>
      if 1 ≤ dr.1 ∧ dr.1 ≤ num_days then
        match shiftToIdx all_shifts dr.2 with
        | some sh_idx =>
          [(fun x => if x si.1 dr.1 sh_idx then 0 else 1, weight)]
        | none => []
      else []))

/-- base_solver.BaseSolver.add_night_off_constraint:
`x[s,d,n] = 1 ⟹ x[s,d+1,OFF] = 1` for every night index `n` and
`d ∈ [1, num_days-1]`; skipped entirely when OFF is missing. -/
def addNightOffConstraint (staff_list : List StaffInfo) (num_days : ℕ)
    (all_shifts : List Shift) (night_shifts : List Shift) : List BConstraint :=
  match shiftToIdx all_shifts SHIFT_OFF with
  | none => []
  | some off_idx =>
    (List.range staff_list.length).flatMap (fun s =>
      (List.range' 1 (num_days - 1)).flatMap (fun d =>
        (night_shifts.filterMap (fun ns => shiftToIdx all_shifts ns)).map
          (fun n => fun x => !(x s d n) || x s (d + 1) off_idx)))

/-- base_solver.BaseSolver.add_consecutive_work_limit: in every window of
`max_consecutive + 1` days the reified per-day working booleans sum to at
most `max_consecutive`.  With no off index present the `is_working`
variables are unconstrained and the posted sum bound does not restrict
the grid. -/
def addConsecutiveWorkLimit (staff_list : List StaffInfo) (num_days : ℕ)
    (all_shifts : List Shift) (max_consecutive : ℕ) : List BConstraint :=
  (List.range staff_list.length).flatMap (fun s =>
    (List.range' 1 (num_days - max_consecutive)).flatMap (fun start_d =>
      let days := (List.range' start_d (max_consecutive + 1)).filter
        (fun d => d ≤ num_days)
      if days.length = max_consecutive + 1 then
        [fun x =>
          if (offIndicesOf all_shifts).isEmpty then true
          else decide (days.countP (fun d =>
            (offIndicesOf all_shifts).all (fun oi => !(x s d oi)))
            ≤ max_consecutive)]
      else []))

/-- Total off-shift variable count `Σ_{d, k∈off} x[s,d,k]` of one staff. -/
def offCountExpr (off_indices : List ℕ) (num_days s : ℕ) (x : Assignment) : ℕ :=
  ((List.range' 1 num_days).map (fun d =>
    off_indices.countP (fun oi => x s d oi))).sum

/-- base_solver.BaseSolver.add_target_off_soft_constraint:
`AddAbsEquality(deviation, off_count - target)` weighted `weight`
(the deviation value is folded to the absolute difference; the IntVar's
`[0, num_days]` domain bound is not itself a claim subject here). -/
def addTargetOffSoftConstraint (staff_list : List StaffInfo) (num_days : ℕ)
    (all_shifts : List Shift) (weight : ℕ) : List Penalty :=
  staff_list.enum.map (fun si =>
    (fun x => ((offCountExpr (offIndicesOf all_shifts) num_days si.1 x : ℤ) -
      (si.2.target_off : ℤ)).natAbs, weight))

/-- base_solver.BaseSolver.add_nogood_cut: the BoolOr of the negations of
the current solution's literals over all `(s, d, k)` of the grid; true on
`y` exactly when `y` differs from `v` somewhere on the grid. -/
def addNogoodCut (v : Assignment) (all_shifts : List Shift)
    (staff_list : List StaffInfo) (num_days : ℕ) : BConstraint :=
  fun y =>
    !((List.range staff_list.length).all (fun s =>
      (List.range' 1 num_days).all (fun d =>
        (List.range all_shifts.length).all (fun k => y s d k == v s d k))))

/-- base_solver.BaseSolver.extract_schedule_df cell extraction: the code
of the FIRST shift index whose variable is 1, `""` when none is. -/
def assignedShift (x : Assignment) (all_shifts : List Shift) (s d : ℕ) : Shift :=
  match (List.range all_shifts.length).find? (fun k => x s d k) with
  | some k => all_shifts.getD k ""
  | none => ""

/-- One row of the extracted schedule DataFrame. -/
structure ScheduleRow where
  name : String
  cells : List Shift
  off_count : ℕ
  work_count : ℕ

/-- base_solver.BaseSolver.extract_schedule_df: per staff, the day cells
plus the off-day count (cell in {OFF, PUB_OFF}) and work-day count
(cell non-empty and not an off code). -/
def extractScheduleRows (x : Assignment) (staff_list : List StaffInfo)
    (num_days : ℕ) (all_shifts : List Shift) : List ScheduleRow :=
  staff_list.enum.map (fun si =>
    { name := si.2.name
      cells := (List.range' 1 num_days).map
        (fun d => assignedShift x all_shifts si.1 d)
      off_count := (List.range' 1 num_days).countP (fun d =>
        ([SHIFT_OFF, SHIFT_PUBLIC_OFF] : List Shift).contains
          (assignedShift x all_shifts si.1 d))
      work_count := (List.range' 1 num_days).countP (fun d =>
        !(([SHIFT_OFF, SHIFT_PUBLIC_OFF] : List Shift).contains
          (assignedShift x all_shifts si.1 d)) &&
        assignedShift x all_shifts si.1 d != "") })

/-- models/constraint.py rule_definition["rule"]: the payload fields read
by the builder; an absent key reads as `none` / `false`. -/
structure Rule where
  exactly_one_shift_per_day : Bool := false
  after_shifts : Option (List Shift) := none
  next_day_must_be : Option (List Shift) := none
  max_consecutive_work_days : Option ℕ := none
  shift_skill_map : List (Shift × String) := []
  maximize_request_satisfaction : Bool := false
  prefer_full_weekend_off_or_work : Bool := false
  target_off_days_field : Option String := none
  balance_shifts : Option (List Shift) := none
  among_staff_with_skill : Option String := none
  balance_weekend_work : Bool := false
  min_staff_per_day : Option ℕ := none
  exclude_shifts : Option (List Shift) := none
  shift_code : Option Shift := none
  exactly_per_day : Option ℕ := none
  on_closed_days : Bool := false
  night_shift_count : Option ℕ := none

/-- models/constraint.py rule_definition with its `"type"` tag
(default "basic", as in `get_rule_type`). -/
structure RuleDefinition where
  type : String := "basic"
  rule : Rule := {}

/-- models/constraint.py Constraint. -/
structure Constraint where
  name : String := ""
  code : String := ""
  category : String := "coverage"
  constraint_type : String := "soft"
  is_enabled : Bool := true
  penalty_weight : ℕ := 10000
  priority_order : ℕ := 50
  rule_definition : RuleDefinition := {}

/-- Constraint.is_soft. -/
def Constraint.is_soft (c : Constraint) : Bool := c.constraint_type == "soft"

/-- Constraint.is_hard. -/
def Constraint.is_hard (c : Constraint) : Bool := c.constraint_type == "hard"

/-- Python truthiness of an optional int: `None` and `0` are falsy. -/
def natTruthy : Option ℕ → Bool
  | none => false
  | some n => n != 0

/-- Python truthiness of an optional string: `None` and `""` are falsy. -/
def strTruthy : Option String → Bool
  | none => false
  | some s => s != ""

/-- Python truthiness of an optional list: `None` and `[]` are falsy. -/
def listTruthy {α : Type} : Option (List α) → Bool
  | none => false
  | some l => !l.isEmpty

/-- Python `weight or default` on the Optional[int] weight. -/
def weightOr (w : Option ℕ) (dflt : ℕ) : ℕ :=
  match w with
  | none => dflt
  | some n => if n = 0 then dflt else n

/-- Gregorian leap year, as datetime uses. -/
def isLeapYear (y : ℕ) : Bool :=
  (y % 4 == 0 && y % 100 != 0) || y % 400 == 0

/-- Length of a month of the proleptic Gregorian calendar. -/
def daysInMonth (y m : ℕ) : ℕ :=
  if m = 2 then (if isLeapYear y then 29 else 28)
  else if m ∈ ([4, 6, 9, 11] : List ℕ) then 30
  else 31

/-- Days before month `m` within year `y`. -/
def daysBeforeMonth (y m : ℕ) : ℕ :=
  ((List.range' 1 (m - 1)).map (fun mm => daysInMonth y mm)).sum

/-- Rata-die day number of a proleptic Gregorian date (0001-01-01 ↦ 1). -/
def rataDie (y m d : ℕ) : ℕ :=
  365 * (y - 1) + (y - 1) / 4 - (y - 1) / 100 + (y - 1) / 400 +
    daysBeforeMonth y m + d

/-- datetime.date.weekday(): Monday = 0 … Sunday = 6. -/
def pyWeekday (y m d : ℕ) : ℕ := (rataDie y m d - 1) % 7

/-- datetime.date(y, m, d) constructibility; outside this a ValueError is
raised and the day is skipped. -/
def dateValid (y m d : ℕ) : Bool :=
  1 ≤ y && y ≤ 9999 && 1 ≤ m && m ≤ 12 && 1 ≤ d && d ≤ daysInMonth y m

/-- constraint_builder.ConstraintBuilder._build_sequence_constraint:
`x[s,d,a] = 1 ⟹ Σ_{m ∈ must} x[s,d+1,m] ≥ 1`. -/
def buildSequenceConstraint (c : Constraint) (staff_list : List StaffInfo)
    (num_days : ℕ) (all_shifts night_shifts : List Shift) : List BConstraint :=
  let after_shifts := c.rule_definition.rule.after_shifts.getD night_shifts
  let next_day_must_be :=
    c.rule_definition.rule.next_day_must_be.getD [SHIFT_OFF]
  let after_indices := after_shifts.filterMap (fun s => shiftToIdx all_shifts s)
  let must_indices :=
    next_day_must_be.filterMap (fun s => shiftToIdx all_shifts s)
  if after_indices.isEmpty || must_indices.isEmpty then []
  else
    (List.range staff_list.length).flatMap (fun s =>
      (List.range' 1 (num_days - 1)).flatMap (fun d =>
        after_indices.map (fun a =>
          fun x => !(x s d a) || must_indices.any (fun m => x s (d + 1) m))))

/-- constraint_builder.ConstraintBuilder._build_rolling_window_constraint:
per window `[start_d, start_d + W]` inside `[1, num_days]` the reified
working booleans sum to at most `W = max_consecutive_work_days`
(default 5). -/
def buildRollingWindowConstraint (c : Constraint) (staff_list : List StaffInfo)
    (num_days : ℕ) (all_shifts : List Shift) : List BConstraint :=
  let max_consecutive := c.rule_definition.rule.max_consecutive_work_days.getD 5
  (List.range staff_list.length).flatMap (fun s =>
    (List.range' 1 (num_days - max_consecutive)).flatMap (fun start_d =>
      let window_days := List.range' start_d
        (min (start_d + max_consecutive + 1) (num_days + 1) - start_d)
      if window_days.length ≤ max_consecutive then []
      else
        [fun x =>
          if (offIndicesOf all_shifts).isEmpty then true
          else decide (window_days.countP (fun d =>
            (offIndicesOf all_shifts).all (fun oi => !(x s d oi)))
            ≤ max_consecutive)]))

/-- constraint_builder.ConstraintBuilder._build_basic_constraint: posts
the per-cell exactly-one family again when the flag is set. -/
def buildBasicConstraint (c : Constraint) (staff_list : List StaffInfo)
    (num_days : ℕ) (all_shifts : List Shift) : List BConstraint :=
  if c.rule_definition.rule.exactly_one_shift_per_day then
    (List.range staff_list.length).flatMap (fun s =>
      (List.range' 1 num_days).map (fun d =>
        fun x => (List.range all_shifts.length).countP (fun k => x s d k) == 1))
  else []

/-- constraint_builder.ConstraintBuilder._build_skill_constraint. -/
def buildSkillConstraint (c : Constraint) (staff_list : List StaffInfo)
    (num_days : ℕ) (all_shifts : List Shift) : List BConstraint :=
  staff_list.enum.flatMap (fun si =>
    c.rule_definition.rule.shift_skill_map.flatMap (fun p =>
      match shiftToIdx all_shifts p.1 with
      | some sh_idx =>
        if si.2.has_skill p.2 then []
        else (List.range' 1 num_days).map (fun d =>
          fun x => x si.1 d sh_idx == false)
      | none => []))

/-- constraint_builder.ConstraintBuilder._add_weekend_preference: for each
in-month Saturday/Sunday pair, a split indicator `sat_off ⊕ sun_off`
weighted `weight`; with no off index the reifications are skipped and the
free split variable contributes 0. -/
def addWeekendPreference (year month : ℕ) (staff_list : List StaffInfo)
    (num_days : ℕ) (all_shifts : List Shift) (weight : ℕ) : List Penalty :=
  let off_indices := offIndicesOf all_shifts
  let weekends := (List.range' 1 num_days).filterMap (fun d =>
    if dateValid year month d && pyWeekday year month d == 5 && d + 1 ≤ num_days
    then some (d, d + 1) else none)
  (List.range staff_list.length).flatMap (fun s =>
    weekends.map (fun w =>
      (fun x =>
        if off_indices.isEmpty then 0
        else if (off_indices.any (fun oi => x s w.1 oi)) !=
                (off_indices.any (fun oi => x s w.2 oi)) then 1 else 0,
       weight)))

/-- constraint_builder.ConstraintBuilder._build_preference_constraint:
only the `prefer_full_weekend_off_or_work` payload key is handled. -/
def buildPreferenceConstraint (c : Constraint) (year month : ℕ)
    (staff_list : List StaffInfo) (num_days : ℕ) (all_shifts : List Shift)
    (weight : Option ℕ) : List Penalty :=
  if c.rule_definition.rule.prefer_full_weekend_off_or_work then
    addWeekendPreference year month staff_list num_days all_shifts
      (weightOr weight 10000)
  else []

/-- constraint_builder.ConstraintBuilder._add_target_off_balance. -/
def addTargetOffBalance (staff_list : List StaffInfo) (num_days : ℕ)
    (all_shifts : List Shift) (weight : ℕ) : List Penalty :=
  staff_list.enum.map (fun si =>
    (fun x => ((offCountExpr (offIndicesOf all_shifts) num_days si.1 x : ℤ) -
      (si.2.target_off : ℤ)).natAbs, weight))

/-- Total count `Σ_{d, k ∈ indices} x[s,d,k]` for one staff. -/
def shiftCountExpr (indices : List ℕ) (num_days s : ℕ) (x : Assignment) : ℕ :=
  ((List.range' 1 num_days).map (fun d =>
    indices.countP (fun k => x s d k))).sum

/-- Eligible staff indices of a balance rule: those having the filter
skill, or every index when the filter is unset. -/
def eligibleStaffIdx (staff_list : List StaffInfo)
    (skill_filter : Option String) : List ℕ :=
  (staff_list.enum.filter (fun si =>
    match skill_filter with
    | none => true
    | some sk => si.2.has_skill sk)).map (fun si => si.1)

/-- constraint_builder.ConstraintBuilder._add_shift_balance: with at least
one balanced index and at least two eligible staff, per eligible `s` a
deviation `|count_s · |E| − total|` weighted `weight // |E|`; otherwise
nothing is added. -/
def addShiftBalance (staff_list : List StaffInfo) (num_days : ℕ)
    (all_shifts : List Shift) (shifts_to_balance : List Shift)
    (skill_filter : Option String) (weight : ℕ) : List Penalty :=
  let balance_indices :=
    shifts_to_balance.filterMap (fun s => shiftToIdx all_shifts s)
  if balance_indices.isEmpty then []
  else
    let eligible_staff := eligibleStaffIdx staff_list skill_filter
    if eligible_staff.length < 2 then []
    else
      eligible_staff.map (fun s =>
        (fun x =>
          ((shiftCountExpr balance_indices num_days s x : ℤ) *
              (eligible_staff.length : ℤ) -
            ((eligible_staff.map (fun t =>
              shiftCountExpr balance_indices num_days t x)).sum : ℤ)).natAbs,
         weight / eligible_staff.length))

/-- constraint_builder.ConstraintBuilder._add_weekend_balance. -/
def addWeekendBalance (year month : ℕ) (staff_list : List StaffInfo)
    (num_days : ℕ) (all_shifts : List Shift) (weight : ℕ) : List Penalty :=
  let off_indices := offIndicesOf all_shifts
  let weekend_days := (List.range' 1 num_days).filter (fun d =>
    dateValid year month d && decide (5 ≤ pyWeekday year month d))
  if weekend_days.isEmpty then []
  else
    let weekendWork := fun (s : ℕ) (x : Assignment) =>
      if off_indices.isEmpty then 0
      else weekend_days.countP (fun d =>
        off_indices.all (fun oi => !(x s d oi)))
    (List.range staff_list.length).map (fun s =>
      (fun x => ((weekendWork s x : ℤ) * (staff_list.length : ℤ) -
        (((List.range staff_list.length).map
          (fun t => weekendWork t x)).sum : ℤ)).natAbs,
       weight / staff_list.length))

/-- constraint_builder.ConstraintBuilder._build_balance_constraint. -/
def buildBalanceConstraint (c : Constraint) (year month : ℕ)
    (staff_list : List StaffInfo) (num_days : ℕ) (all_shifts : List Shift)
    (weight : Option ℕ) : List Penalty :=
  (if strTruthy c.rule_definition.rule.target_off_days_field then
    addTargetOffBalance staff_list num_days all_shifts (weightOr weight 30000)
  else []) ++
  (if listTruthy c.rule_definition.rule.balance_shifts then
    addShiftBalance staff_list num_days all_shifts
      (c.rule_definition.rule.balance_shifts.getD [])
      c.rule_definition.rule.among_staff_with_skill (weightOr weight 20000)
  else []) ++
  (if c.rule_definition.rule.balance_weekend_work then
    addWeekendBalance year month staff_list num_days all_shifts
      (weightOr weight 15000)
  else [])

/-- constraint_builder.ConstraintBuilder._add_min_coverage: a truthy
weight gives a shortage slack penalty per day, otherwise the hard bound
`work_d ≥ min_staff` (with no exclude index the working booleans are
free, so the hard bound restricts nothing beyond `min_staff ≤ S` and the
minimal shortage is `min_staff − S`). -/
def addMinCoverage (staff_list : List StaffInfo) (num_days : ℕ)
    (all_shifts : List Shift) (min_staff : ℕ) (exclude_shifts : List Shift)
    (weight : Option ℕ) : List BConstraint × List Penalty :=
  let exclude_indices :=
    exclude_shifts.filterMap (fun s => shiftToIdx all_shifts s)
  let workingCount := fun (d : ℕ) (x : Assignment) =>
    (List.range staff_list.length).countP (fun s =>
      exclude_indices.all (fun ei => !(x s d ei)))
  if natTruthy weight then
    ([], (List.range' 1 num_days).map (fun d =>
      (fun x => min_staff - (if exclude_indices.isEmpty then staff_list.length
        else workingCount d x), weight.getD 0)))
  else
    ((List.range' 1 num_days).map (fun d =>
      fun x =>
        if exclude_indices.isEmpty then decide (min_staff ≤ staff_list.length)
        else decide (min_staff ≤ workingCount d x)), [])

/-- constraint_builder.ConstraintBuilder._add_exact_shift_coverage: a
truthy weight gives `|n_d − count|` penalties, otherwise the hard
equality `n_d = count`; nothing when the code is outside the alphabet. -/
def addExactShiftCoverage (staff_list : List StaffInfo) (num_days : ℕ)
    (all_shifts : List Shift) (shift_code : Shift) (count : ℕ)
    (weight : Option ℕ) : List BConstraint × List Penalty :=
  match shiftToIdx all_shifts shift_code with
  | none => ([], [])
  | some sh_idx =>
    if natTruthy weight then
      ([], (List.range' 1 num_days).map (fun d =>
        (fun x => (((List.range staff_list.length).countP
          (fun s => x s d sh_idx) : ℤ) - (count : ℤ)).natAbs, weight.getD 0)))
    else
      ((List.range' 1 num_days).map (fun d =>
        fun x => (List.range staff_list.length).countP
          (fun s => x s d sh_idx) == count), [])

/-- constraint_builder.ConstraintBuilder._add_closed_day_night_coverage. -/
def addClosedDayNightCoverage (closed_days : List ℕ)
    (staff_list : List StaffInfo) (num_days : ℕ)
    (all_shifts night_shifts : List Shift) (night_count : ℕ)
    (weight : Option ℕ) : List BConstraint × List Penalty :=
  if closed_days.isEmpty then ([], [])
  else
    let night_indices :=
      night_shifts.filterMap (fun s => shiftToIdx all_shifts s)
    let nExpr := fun (d : ℕ) (x : Assignment) =>
      (night_indices.map (fun n =>
        (List.range staff_list.length).countP (fun s => x s d n))).sum
    ((closed_days.filter (fun d => 1 ≤ d && d ≤ num_days)).flatMap (fun d =>
       if natTruthy weight then []
       else [fun x => nExpr d x == night_count]),
     (closed_days.filter (fun d => 1 ≤ d && d ≤ num_days)).flatMap (fun d =>
       if natTruthy weight then
         [(fun x => ((nExpr d x : ℤ) - (night_count : ℤ)).natAbs,
           weight.getD 0)]
       else []))

/-- constraint_builder.ConstraintBuilder._build_coverage_constraint: the
three payload shapes, each gated on Python truthiness of its keys. -/
def buildCoverageConstraint (c : Constraint) (closed_days : List ℕ)
    (staff_list : List StaffInfo) (num_days : ℕ)
    (all_shifts night_shifts : List Shift) (weight : Option ℕ) :
    List BConstraint × List Penalty :=
  let rule := c.rule_definition.rule
  let p1 := if natTruthy rule.min_staff_per_day then
      addMinCoverage staff_list num_days all_shifts
        (rule.min_staff_per_day.getD 3)
        (rule.exclude_shifts.getD [SHIFT_OFF, SHIFT_PUBLIC_OFF]) weight
    else ([], [])
  let p2 := if strTruthy rule.shift_code && natTruthy rule.exactly_per_day then
      addExactShiftCoverage staff_list num_days all_shifts
        (rule.shift_code.getD "") (rule.exactly_per_day.getD 0) weight
    else ([], [])
  let p3 := if rule.on_closed_days && natTruthy rule.night_shift_count then
      addClosedDayNightCoverage closed_days staff_list num_days all_shifts
        night_shifts (rule.night_shift_count.getD 2) weight
    else ([], [])
  (p1.1 ++ p2.1 ++ p3.1, p1.2 ++ p2.2 ++ p3.2)

/-- constraint_builder.ConstraintBuilder.build_constraints, one rule:
disabled rules are skipped; the weight handed to the soft translations is
`penalty_weight if is_soft() else None`; dispatch on the rule type tag
(`forbidden` is a pass; unknown tags add nothing). -/
def buildOne (c : Constraint) (closed_days : List ℕ) (year month : ℕ)
    (staff_list : List StaffInfo) (num_days : ℕ)
    (all_shifts night_shifts : List Shift) :
    List BConstraint × List Penalty :=
  if !c.is_enabled then ([], [])
  else
    let weight : Option ℕ := if c.is_soft then some c.penalty_weight else none
    match c.rule_definition.type with
    | "sequence" =>
      (buildSequenceConstraint c staff_list num_days all_shifts night_shifts,
       [])
    | "rolling_window" =>
      (buildRollingWindowConstraint c staff_list num_days all_shifts, [])
    | "basic" => (buildBasicConstraint c staff_list num_days all_shifts, [])
    | "skill_match" =>
      (buildSkillConstraint c staff_list num_days all_shifts, [])
    | "forbidden" => ([], [])
    | "preference" =>
      ([], buildPreferenceConstraint c year month staff_list num_days
        all_shifts weight)
    | "balance" =>
      ([], buildBalanceConstraint c year month staff_list num_days all_shifts
        weight)
    | "coverage" =>
      buildCoverageConstraint c closed_days staff_list num_days all_shifts
        night_shifts weight
    | _ => ([], [])

/-- constraint_builder.ConstraintBuilder.build_constraints over the rule
list, concatenating per-rule output in order. -/
def buildConstraints (cs : List Constraint) (closed_days : List ℕ)
    (year month : ℕ) (staff_list : List StaffInfo) (num_days : ℕ)
    (all_shifts night_shifts : List Shift) :
    List BConstraint × List Penalty :=
  match cs with
  | [] => ([], [])
  | c :: rest =>
    let r := buildOne c closed_days year month staff_list num_days all_shifts
      night_shifts
    let rr := buildConstraints rest closed_days year month staff_list num_days
      all_shifts night_shifts
    (r.1 ++ rr.1, r.2 ++ rr.2)

/-- The Stage-1 restricted alphabet: stage1_shifts =
night_shifts + ["L1", OFF, PUB_OFF]. -/
def stage1Shifts (input : SolverInput) : List Shift :=
  input.night_shifts ++ [("L1" : Shift), SHIFT_OFF, SHIFT_PUBLIC_OFF]

/-- The skill map built identically by both stage setups:
`{"L1": "L1"}` then every night shift mapped to "NIGHT". -/
def solverSkillMap (input : SolverInput) : List (Shift × String) :=
  (("L1" : Shift), ("L1" : String)) ::
    input.night_shifts.map (fun ns => (ns, ("NIGHT" : String)))

/-- stage1_solver tail scan over prev_history: running count of
consecutive non-off entries, reset on {OFF, PUB_OFF, "", "-"}. -/
def consecutiveWorkOfHistory (history : List Shift) : ℕ :=
  history.foldl (fun acc h =>
    if ([SHIFT_OFF, SHIFT_PUBLIC_OFF, "", "-"] : List Shift).contains h
    then 0 else acc + 1) 0

/-- stage1_solver.Stage1Solver._add_prev_history_constraints: a fixed
`x[s,1,OFF] = 1` when the last history entry is a night shift, and
another when a history of length ≥ 3 ends in ≥ 5 consecutive worked
entries. -/
def stage1PrevHistoryConstraints (input : SolverInput) : List BConstraint :=
  let off_idx := shiftToIdx (stage1Shifts input) SHIFT_OFF
  input.staff_list.enum.flatMap (fun si =>
    let history := (dictGet input.prev_history si.2.name).getD []
    if history.isEmpty || history.length < 1 then []
    else
      (match history.getLast?, off_idx with
       | some d_minus_1, some oi =>
         if input.night_shifts.contains d_minus_1
         then [fun x => x si.1 1 oi] else []
       | _, _ => []) ++
      (match off_idx with
       | some oi =>
         if 3 ≤ history.length ∧ 5 ≤ consecutiveWorkOfHistory history
         then [fun x => x si.1 1 oi] else []
       | none => []))

/-- stage1_solver.Stage1Solver._add_l1_daily_constraint: on every
non-closed day a `|l1_count − 1|` deviation weighted 35000. -/
def stage1L1DailyPenalties (input : SolverInput) : List Penalty :=
  match shiftToIdx (stage1Shifts input) ("L1") with
  | none => []
  | some l1_idx =>
    (List.range' 1 input.num_days).filterMap (fun d =>
      if input.closed_days.contains d then none
      else some (fun x =>
        (((List.range input.staff_list.length).countP
          (fun s => x s d l1_idx) : ℤ) - 1).natAbs, 35000))

/-- stage1_solver.Stage1Solver._add_night_balance_constraint: with ≥ 2
night-capable staff, per such staff a
`|count · |N| − total|` deviation weighted `20000 // |N|`. -/
def stage1NightBalancePenalties (input : SolverInput) : List Penalty :=
  let night_indices := input.night_shifts.filterMap
    (fun ns => shiftToIdx (stage1Shifts input) ns)
  if night_indices.isEmpty then []
  else
    let night_staff := input.staff_list.enum.filter (fun si => si.2.can_night)
    if night_staff.length < 2 then []
    else
      night_staff.map (fun si =>
        (fun x =>
          Int.natAbs ((shiftCountExpr night_indices input.num_days si.1 x : ℤ) *
              (night_staff.length : ℤ) -
            ((night_staff.map (fun t =>
              shiftCountExpr night_indices input.num_days t.1 x)).sum : ℤ)),
         20000 / night_staff.length))

/-- stage1_solver.Stage1Solver.setup: every hard constraint family it
posts, in posting order (an empty rule list makes the dynamic builder a
no-op, as does skipping the `if constraints:` branch). -/
def stage1Hard (input : SolverInput) (cs : List Constraint) :
    List BConstraint :=
  addExactlyOneShiftPerDay input.staff_list input.num_days
    (stage1Shifts input) ++
  addSkillConstraints input.staff_list input.num_days (stage1Shifts input)
    (solverSkillMap input) ++
  addNgConstraints input.staff_list input.num_days (stage1Shifts input)
    input.ng_shifts ++
  addNightOffConstraint input.staff_list input.num_days (stage1Shifts input)
    input.night_shifts ++
  stage1PrevHistoryConstraints input ++
  addConsecutiveWorkLimit input.staff_list input.num_days (stage1Shifts input)
    5 ++
  (buildConstraints cs input.closed_days input.year input.month
    input.staff_list input.num_days (stage1Shifts input)
    input.night_shifts).1

/-- stage1_solver.Stage1Solver.setup: every penalty term it books, in
posting order. -/
def stage1Penalties (input : SolverInput) (cs : List Constraint) :
    List Penalty :=
  addRequestSoftConstraints input.staff_list input.num_days
    (stage1Shifts input) input.requests 50000 ++
  addTargetOffSoftConstraint input.staff_list input.num_days
    (stage1Shifts input) 30000 ++
  stage1L1DailyPenalties input ++
  stage1NightBalancePenalties input ++
  (buildConstraints cs input.closed_days input.year input.month
    input.staff_list input.num_days (stage1Shifts input)
    input.night_shifts).2

/-- The Stage-2 full alphabet:
day_shifts + night_shifts + [OFF, PUB_OFF]. -/
def stage2AllShifts (input : SolverInput) : List Shift :=
  input.day_shifts ++ input.night_shifts ++ [SHIFT_OFF, SHIFT_PUBLIC_OFF]

/-- A Stage-1 result table: rows of staff name and per-day cell value
(`none` where the row has no column for the day). -/
abbrev Stage1Df := List (String × (ℕ → Option Shift))

/-- The dict `{staff.name: idx}`: index of the LAST staff with a name. -/
def nameToIdx (staff_list : List StaffInfo) (nm : String) : Option ℕ :=
  dictGet (staff_list.enum.map (fun si => (si.2.name, si.1))) nm

/-- stage2_solver.Stage2Solver._fix_stage1_cells: a non-empty Stage-1
cell value that is in the Stage-2 alphabet and lies in
night_shifts ∪ {L1, OFF, PUB_OFF} is pinned by `x[s,d,k] = 1`. -/
def fixStage1Cells (input : SolverInput) (stage1_df : Stage1Df) :
    List BConstraint :=
  stage1_df.flatMap (fun row =>
    match nameToIdx input.staff_list row.1 with
    | none => []
    | some s_idx =>
      (List.range' 1 input.num_days).flatMap (fun d =>
        match row.2 d with
        | none => []
        | some shift =>
          if shift != "" then
            match shiftToIdx (stage2AllShifts input) shift with
            | some sh_idx =>
              if input.night_shifts.contains shift ||
                 (["L1", SHIFT_OFF, SHIFT_PUBLIC_OFF] : List Shift).contains
                   shift
              then [fun x => x s_idx d sh_idx] else []
            | none => []
          else []))

/-- stage2_solver.Stage2Solver._fix_edited_cells: every fixed_cells entry
with a day inside `[1, num_days]` and a code in the Stage-2 alphabet is
pinned by `x[s,d,k] = 1`. -/
def fixEditedCells (input : SolverInput) : List BConstraint :=
  input.fixed_cells.flatMap (fun entry =>
    match nameToIdx input.staff_list entry.1 with
    | none => []
    | some s_idx =>
      entry.2.flatMap (fun ds =>
        if 1 ≤ ds.1 ∧ ds.1 ≤ input.num_days then
          match shiftToIdx (stage2AllShifts input) ds.2 with
          | some sh_idx => [fun x => x s_idx ds.1 sh_idx]
          | none => []
        else []))

/-- stage2_solver.Stage2Solver._add_day_shift_request_constraints: a
reified miss penalty weighted 40000 per request whose code is a day
shift present in the Stage-2 alphabet. -/
def stage2DayShiftRequestPenalties (input : SolverInput) : List Penalty :=
  input.staff_list.enum.flatMap (fun si =>
    ((dictGet input.requests si.2.name).getD []).flatMap (fun dr =>
      if 1 ≤ dr.1 ∧ dr.1 ≤ input.num_days then
        if input.day_shifts.contains dr.2 then
          match shiftToIdx (stage2AllShifts input) dr.2 with
          | some sh_idx => [(fun x => if x si.1 dr.1 sh_idx then 0 else 1,
              40000)]
          | none => []
        else []
      else []))

/-- stage2_solver.Stage2Solver._add_day_shift_balance. -/
def stage2DayShiftBalancePenalties (input : SolverInput) : List Penalty :=
  let day_shift_indices := input.day_shifts.filterMap
    (fun ds => shiftToIdx (stage2AllShifts input) ds)
  if day_shift_indices.isEmpty then []
  else
    (List.range input.staff_list.length).map (fun s =>
      (fun x =>
        Int.natAbs ((shiftCountExpr day_shift_indices input.num_days s x : ℤ) *
            (input.staff_list.length : ℤ) -
          (((List.range input.staff_list.length).map (fun t =>
            shiftCountExpr day_shift_indices input.num_days t x)).sum : ℤ)),
       10000 / input.staff_list.length))

/-- stage2_solver.Stage2Solver._add_daily_coverage: per non-closed day a
shortage slack against a minimum of 3 working staff, weighted 25000. -/
def stage2DailyCoveragePenalties (input : SolverInput) : List Penalty :=
  let off_indices := offIndicesOf (stage2AllShifts input)
  (List.range' 1 input.num_days).filterMap (fun d =>
    if input.closed_days.contains d then none
    else some (fun x =>
      3 - (if off_indices.isEmpty then input.staff_list.length
        else (List.range input.staff_list.length).countP (fun s =>
          off_indices.all (fun oi => !(x s d oi)))), 25000))

/-- stage2_solver.Stage2Solver.setup: every hard constraint family it
posts, in posting order. -/
def stage2Hard (input : SolverInput) (stage1_df : Stage1Df)
    (cs : List Constraint) : List BConstraint :=
  fixStage1Cells input stage1_df ++
  fixEditedCells input ++
  addExactlyOneShiftPerDay input.staff_list input.num_days
    (stage2AllShifts input) ++
  addSkillConstraints input.staff_list input.num_days (stage2AllShifts input)
    (solverSkillMap input) ++
  addNgConstraints input.staff_list input.num_days (stage2AllShifts input)
    input.ng_shifts ++
  addConsecutiveWorkLimit input.staff_list input.num_days
    (stage2AllShifts input) 5 ++
  (buildConstraints cs input.closed_days input.year input.month
    input.staff_list input.num_days (stage2AllShifts input)
    input.night_shifts).1

/-- stage2_solver.Stage2Solver.setup: every penalty term it books, in
posting order. -/
def stage2Penalties (input : SolverInput) (cs : List Constraint) :
    List Penalty :=
  stage2DayShiftRequestPenalties input ++
  stage2DayShiftBalancePenalties input ++
  stage2DailyCoveragePenalties input ++
  (buildConstraints cs input.closed_days input.year input.month
    input.staff_list input.num_days (stage2AllShifts input)
    input.night_shifts).2

/-- BaseSolver.solve_multi (shared by both stage solvers): repeatedly
invoke the abstracted CP-SAT search `choose` on the current model; on
success record the found grid, and — except on the last iteration — add
the no-good cut of that grid before re-solving; stop on the first
failure.  `choose` is the external solver: any function returning a
model solution when it succeeds. -/
def solveMultiModel (choose : List BConstraint → Option Assignment)
    (all_shifts : List Shift) (staff_list : List StaffInfo) (num_days : ℕ) :
    List BConstraint → ℕ → List Assignment
  | _, 0 => []
  | m, k + 1 =>
    match choose m with
    | none => []
    | some x =>
      x :: (if k = 0 then []
        else solveMultiModel choose all_shifts staff_list num_days
          (m ++ [addNogoodCut x all_shifts staff_list num_days]) k)

/-- Concrete fixtures used by the witness theorems. -/
def stA : StaffInfo := { name := "A", skills := ["NIGHT", "L1"] }

def stB : StaffInfo := { name := "B", skills := ["NIGHT", "L1"] }

def wInput : SolverInput :=
  { year := 2025, month := 1, num_days := 2,
    staff_list := [stA],
    day_shifts := ["D1"],
    night_shifts := ["Q1"],
    requests := [("A", [(1, "Q1")])],
    fixed_cells := [("A", [(2, "-")])] }

def wInput7 : SolverInput :=
  { wInput with prev_history := [("A", ["Q1", "Q1", "Q1", "Q1", "Q1"])] }

def wInput6 : SolverInput :=
  { wInput with requests := [("A", [(1, "D1")])] }

/-- All-off grid on the Stage-1 fixture alphabet ["Q1","L1","-","公"]. -/
def wxOff : Assignment := fun _ _ k => k == 2

/-- Night on day 1, off on day 2 (Stage-1 fixture alphabet). -/
def wxNight : Assignment := fun _ d k => if d = 1 then k == 0 else k == 2

/-- Stage-2 fixture grid on ["D1","Q1","-","公"]: Q1 then off. -/
def wx2 : Assignment := fun _ d k => if d = 1 then k == 1 else k == 2

def wDf : Stage1Df :=
  [("A", fun d => if d = 1 then some "Q1"
    else if d = 2 then some "-" else none)]

/-- Fixture alphabet and grids for the K-best witness. -/
def wAll5 : List Shift := ["A1", "B1"]

def wSA : Assignment := fun _ _ k => k == 0

def wSB : Assignment := fun _ _ k => k == 1

/-- A concrete sound solver oracle over the two fixture grids. -/
def chooseW (m : List BConstraint) : Option Assignment :=
  if m.all (fun c => c wSA) then some wSA
  else if m.all (fun c => c wSB) then some wSB
  else none

/-- Fixture alphabet for builder-level witnesses. -/
def wShifts3 : List Shift := ["Q1", "-", "公"]

/-- A preference rule carrying only maximize_request_satisfaction. -/
def cPref : Constraint :=
  { code := "REQ", constraint_type := "soft", penalty_weight := 12345,
    rule_definition :=
      { type := "preference",
        rule := { maximize_request_satisfaction := true } } }

/-- A balance rule on one shift, weight 20000, no skill filter. -/
def cBal : Constraint :=
  { code := "BAL", constraint_type := "soft", penalty_weight := 20000,
    rule_definition :=
      { type := "balance",
        rule := { balance_shifts := some ["Q1"] } } }

/-- A soft coverage rule with zero weight: min_staff_per_day = 1. -/
def cMin : Constraint :=
  { code := "MINC", constraint_type := "soft", penalty_weight := 0,
    rule_definition :=
      { type := "coverage",
        rule := { min_staff_per_day := some 1 } } }

/-- A soft coverage rule with zero weight: exactly one "Q1" per day. -/
def cExact : Constraint :=
  { code := "EXC", constraint_type := "soft", penalty_weight := 0,
    rule_definition :=
      { type := "coverage",
        rule := { shift_code := some "Q1", exactly_per_day := some 1 } } }

/-- A hard rolling-window rule with W = 1. -/
def cRoll : Constraint :=
  { code := "ROLL", constraint_type := "hard", penalty_weight := 200000,
    rule_definition :=
      { type := "rolling_window",
        rule := { max_consecutive_work_days := some 1 } } }

/-- All-"Q1" grid on wShifts3. -/
def wxQ : Assignment := fun _ _ k => k == 0

/-- All-off grid on wShifts3 (off index 1). -/
def wxOff3 : Assignment := fun _ _ k => k == 1

theorem satisfies_append {x : Assignment} {a b : List BConstraint} :
    Satisfies x (a ++ b) ↔ Satisfies x a ∧ Satisfies x b := by
  constructor
  · intro h
    exact ⟨fun c hc => h c (List.mem_append.mpr (Or.inl hc)),
           fun c hc => h c (List.mem_append.mpr (Or.inr hc))⟩
  · rintro ⟨ha, hb⟩ c hc
    rcases List.mem_append.mp hc with h | h
    · exact ha c h
    · exact hb c h

theorem satisfies_of_all {x : Assignment} {m : List BConstraint}
    (h : m.all (fun c => c x) = true) : Satisfies x m :=
  fun c hc => List.all_eq_true.mp h c hc

theorem shiftToIdx_lt {all_shifts : List Shift} {s : Shift} {k : ℕ}
    (h : shiftToIdx all_shifts s = some k) : k < all_shifts.length := by
  unfold shiftToIdx at h
  have hm := List.mem_of_mem_getLast? h
  exact List.mem_range.mp (List.mem_filter.mp hm).1

theorem shiftToIdx_getD {all_shifts : List Shift} {s : Shift} {k : ℕ}
    (h : shiftToIdx all_shifts s = some k) : all_shifts.getD k "" = s := by
  unfold shiftToIdx at h
  have hm := List.mem_of_mem_getLast? h
  have := (List.mem_filter.mp hm).2
  simpa using this

theorem shiftToIdx_mem {all_shifts : List Shift} {s : Shift}
    (h : s ∈ all_shifts) : ∃ k, shiftToIdx all_shifts s = some k ∧
      k < all_shifts.length ∧ all_shifts.getD k "" = s := by
  have hne : (List.range all_shifts.length).filter
      (fun i => all_shifts.getD i "" == s) ≠ [] := by
    obtain ⟨n, hn, he⟩ := List.mem_iff_getElem.mp h
    intro hnil
    have : n ∈ (List.range all_shifts.length).filter
        (fun i => all_shifts.getD i "" == s) := by
      refine List.mem_filter.mpr ⟨List.mem_range.mpr hn, ?_⟩
      rw [List.getD_eq_getElem all_shifts "" hn, he]
      exact beq_self_eq_true s
    rw [hnil] at this
    cases this
  have hsome : (shiftToIdx all_shifts s).isSome := by
    unfold shiftToIdx
    exact List.getLast?_isSome.mpr hne
  obtain ⟨k, hk⟩ := Option.isSome_iff_exists.mp hsome
  exact ⟨k, hk, shiftToIdx_lt hk, shiftToIdx_getD hk⟩

theorem nodup_getD_inj {l : List Shift} (h : l.Nodup) {i j : ℕ}
    (hi : i < l.length) (hj : j < l.length)
    (he : l.getD i "" = l.getD j "") : i = j := by
  rw [List.getD_eq_getElem l "" hi, List.getD_eq_getElem l "" hj] at he
  exact (List.Nodup.getElem_inj_iff h).mp he

theorem mem_offIndicesOf {all_shifts : List Shift} {oi : ℕ}
    (h : oi ∈ offIndicesOf all_shifts) :
    oi < all_shifts.length ∧
      (all_shifts.getD oi "" = SHIFT_OFF ∨
       all_shifts.getD oi "" = SHIFT_PUBLIC_OFF) := by
  unfold offIndicesOf at h
  obtain ⟨a, ha, hid⟩ := List.mem_filterMap.mp h
  simp only [id] at hid
  simp only [List.mem_cons, List.not_mem_nil, or_false] at ha
  rcases ha with ha | ha
  · rw [ha] at hid
    exact ⟨shiftToIdx_lt hid, Or.inl (shiftToIdx_getD hid)⟩
  · rw [ha] at hid
    exact ⟨shiftToIdx_lt hid, Or.inr (shiftToIdx_getD hid)⟩

theorem countP_one_unique {l : List ℕ} (hnd : l.Nodup) {p : ℕ → Bool}
    (h : l.countP p = 1) {a b : ℕ} (ha : a ∈ l) (hpa : p a = true)
    (hb : b ∈ l) (hpb : p b = true) : a = b := by
  induction l with
  | nil => cases ha
  | cons c t ih =>
    rcases List.nodup_cons.mp hnd with ⟨hct, hnt⟩
    by_cases hp : p c = true
    · rw [List.countP_cons_of_pos p t hp] at h
      have hz : t.countP p = 0 := by omega
      have hnone := List.countP_eq_zero.mp hz
      have hac : a = c := by
        rcases List.mem_cons.mp ha with h1 | h1
        · exact h1
        · exact absurd hpa (hnone a h1)
      have hbc : b = c := by
        rcases List.mem_cons.mp hb with h1 | h1
        · exact h1
        · exact absurd hpb (hnone b h1)
      rw [hac, hbc]
    · rw [List.countP_cons_of_neg p t hp] at h
      have hat : a ∈ t := by
        rcases List.mem_cons.mp ha with h1 | h1
        · exact absurd (h1 ▸ hpa) hp
        · exact h1
      have hbt : b ∈ t := by
        rcases List.mem_cons.mp hb with h1 | h1
        · exact absurd (h1 ▸ hpb) hp
        · exact h1
      exact ih hnt h hat hbt

theorem assigned_spec {x : Assignment} {all_shifts : List Shift} {s d : ℕ}
    (hone : (List.range all_shifts.length).countP (fun k => x s d k) = 1) :
    ∃ j, j < all_shifts.length ∧ x s d j = true ∧
      assignedShift x all_shifts s d = all_shifts.getD j "" ∧
      ∀ i, i < all_shifts.length → x s d i = true → i = j := by
  have hpos : 0 < (List.range all_shifts.length).countP (fun k => x s d k) := by
    omega
  obtain ⟨j, hjm, hpj⟩ := List.countP_pos_iff.mp hpos
  have hj := List.mem_range.mp hjm
  have huniq : ∀ i, i < all_shifts.length → x s d i = true → i = j := by
    intro i hi hxi
    exact countP_one_unique (List.nodup_range _) hone
      (List.mem_range.mpr hi) hxi hjm hpj
  have hass : assignedShift x all_shifts s d = all_shifts.getD j "" := by
    unfold assignedShift
    cases hf : (List.range all_shifts.length).find? (fun k => x s d k) with
    | none =>
      exact absurd hpj (List.find?_eq_none.mp hf j hjm)
    | some i =>
      have hpi := List.find?_some hf
      have him := List.mem_of_find?_eq_some hf
      rw [huniq i (List.mem_range.mp him) hpi]
  exact ⟨j, hj, hpj, hass, huniq⟩

theorem assignedShift_eq_of_true {x : Assignment} {all_shifts : List Shift}
    {s d k : ℕ}
    (hone : (List.range all_shifts.length).countP (fun j => x s d j) = 1)
    (hk : k < all_shifts.length) (hx : x s d k = true) :
    assignedShift x all_shifts s d = all_shifts.getD k "" := by
  obtain ⟨j, _, _, hass, huniq⟩ := assigned_spec hone
  rw [hass, huniq k hk hx]


theorem mem_enum_of_get {α : Type} {l : List α} {i : ℕ} {a : α}
    (h : l.get? i = some a) : (i, a) ∈ l.enum := by
  rw [List.mem_enum_iff_getElem?]
  simpa [List.get?_eq_getElem?] using h

theorem sat_exactlyOne {x : Assignment} {staff_list : List StaffInfo}
    {num_days : ℕ} {all_shifts : List Shift}
    (hx : Satisfies x (addExactlyOneShiftPerDay staff_list num_days all_shifts))
    {s d : ℕ} (hs : s < staff_list.length) (h1 : 1 ≤ d) (h2 : d ≤ num_days) :
    (List.range all_shifts.length).countP (fun k => x s d k) = 1 := by
  have hmem : (fun y : Assignment =>
      (List.range all_shifts.length).countP (fun k => y s d k) == 1) ∈
      addExactlyOneShiftPerDay staff_list num_days all_shifts := by
    unfold addExactlyOneShiftPerDay
    refine List.mem_flatMap.mpr ⟨s, List.mem_range.mpr hs, ?_⟩
    refine List.mem_map.mpr ⟨d, ?_, rfl⟩
    rw [List.mem_range'_1]
    omega
  have := hx _ hmem
  simpa using this

theorem sat_nightOff {x : Assignment} {staff_list : List StaffInfo}
    {num_days : ℕ} {all_shifts night_shifts : List Shift}
    (hx : Satisfies x
      (addNightOffConstraint staff_list num_days all_shifts night_shifts))
    {off_idx : ℕ} (hoff : shiftToIdx all_shifts SHIFT_OFF = some off_idx)
    {s d n : ℕ} (hs : s < staff_list.length) (h1 : 1 ≤ d) (h2 : d < num_days)
    (hn : n ∈ night_shifts.filterMap (fun ns => shiftToIdx all_shifts ns))
    (hxn : x s d n = true) : x s (d + 1) off_idx = true := by
  have hmem : (fun y : Assignment => !(y s d n) || y s (d + 1) off_idx) ∈
      addNightOffConstraint staff_list num_days all_shifts night_shifts := by
    unfold addNightOffConstraint
    rw [hoff]
    refine List.mem_flatMap.mpr ⟨s, List.mem_range.mpr hs, ?_⟩
    refine List.mem_flatMap.mpr ⟨d, ?_, ?_⟩
    · rw [List.mem_range'_1]
      omega
    · exact List.mem_map.mpr ⟨n, hn, rfl⟩
  have := hx _ hmem
  rw [hxn] at this
  simpa using this

theorem buildConstraints_hard_mem {cs : List Constraint}
    {closed_days : List ℕ} {year month : ℕ} {staff_list : List StaffInfo}
    {num_days : ℕ} {all_shifts night_shifts : List Shift} {c : Constraint}
    (hc : c ∈ cs) {cc : BConstraint}
    (hcc : cc ∈ (buildOne c closed_days year month staff_list num_days
      all_shifts night_shifts).1) :
    cc ∈ (buildConstraints cs closed_days year month staff_list num_days
      all_shifts night_shifts).1 := by
  induction cs with
  | nil => cases hc
  | cons c0 rest ih =>
    rcases List.mem_cons.mp hc with h | h
    · subst h
      exact List.mem_append.mpr (Or.inl hcc)
    · exact List.mem_append.mpr (Or.inr (ih h))

theorem buildConstraints_pen_mem {cs : List Constraint}
    {closed_days : List ℕ} {year month : ℕ} {staff_list : List StaffInfo}
    {num_days : ℕ} {all_shifts night_shifts : List Shift} {c : Constraint}
    (hc : c ∈ cs) {p : Penalty}
    (hp : p ∈ (buildOne c closed_days year month staff_list num_days
      all_shifts night_shifts).2) :
    p ∈ (buildConstraints cs closed_days year month staff_list num_days
      all_shifts night_shifts).2 := by
  induction cs with
  | nil => cases hc
  | cons c0 rest ih =>
    rcases List.mem_cons.mp hc with h | h
    · subst h
      exact List.mem_append.mpr (Or.inl hp)
    · exact List.mem_append.mpr (Or.inr (ih h))

theorem buildOne_rolling {c : Constraint} {closed_days : List ℕ}
    {year month : ℕ} {staff_list : List StaffInfo} {num_days : ℕ}
    {all_shifts night_shifts : List Shift}
    (hen : c.is_enabled = true)
    (hty : c.rule_definition.type = "rolling_window") :
    buildOne c closed_days year month staff_list num_days all_shifts
        night_shifts =
      (buildRollingWindowConstraint c staff_list num_days all_shifts, []) := by
  unfold buildOne
  rw [hen, hty]
  rfl

theorem sat_rollingWindow {x : Assignment} {c : Constraint}
    {staff_list : List StaffInfo} {num_days : ℕ} {all_shifts : List Shift}
    (hx : Satisfies x
      (buildRollingWindowConstraint c staff_list num_days all_shifts))
    {W : ℕ} (hW : c.rule_definition.rule.max_consecutive_work_days = some W)
    (hoffne : (offIndicesOf all_shifts).isEmpty = false)
    {s d0 : ℕ} (hs : s < staff_list.length) (h1 : 1 ≤ d0)
    (h2 : d0 + W ≤ num_days) :
    (List.range' d0 (W + 1)).countP (fun d =>
      (offIndicesOf all_shifts).all (fun oi => !(x s d oi))) ≤ W := by
  have hmin : min (d0 + W + 1) (num_days + 1) - d0 = W + 1 := by omega
  have hmem : (fun y : Assignment =>
      if (offIndicesOf all_shifts).isEmpty then true
      else decide ((List.range' d0 (W + 1)).countP (fun d =>
        (offIndicesOf all_shifts).all (fun oi => !(y s d oi))) ≤ W)) ∈
      buildRollingWindowConstraint c staff_list num_days all_shifts := by
    unfold buildRollingWindowConstraint
    simp only [hW, Option.getD_some]
    refine List.mem_flatMap.mpr ⟨s, List.mem_range.mpr hs, ?_⟩
    refine List.mem_flatMap.mpr ⟨d0, ?_, ?_⟩
    · rw [List.mem_range'_1]
      omega
    · rw [hmin]
      simp only [List.length_range']
      rw [if_neg (by omega)]
      exact List.mem_singleton.mpr rfl
  have := hx _ hmem
  rw [if_neg (by simp [hoffne])] at this
  exact of_decide_eq_true this

theorem workdays_le_offFalse {x : Assignment} {all_shifts : List Shift}
    {s : ℕ} {days : List ℕ}
    (hone : ∀ d ∈ days,
      (List.range all_shifts.length).countP (fun k => x s d k) = 1) :
    days.countP (fun d =>
      !(([SHIFT_OFF, SHIFT_PUBLIC_OFF] : List Shift).contains
        (assignedShift x all_shifts s d))) ≤
    days.countP (fun d =>
      (offIndicesOf all_shifts).all (fun oi => !(x s d oi))) := by
  apply List.countP_mono_left
  intro d hd hpd
  obtain ⟨j, hj, hxj, hass, huniq⟩ := assigned_spec (hone d hd)
  rw [List.all_eq_true]
  intro oi hoi
  obtain ⟨hlt, hcode⟩ := mem_offIndicesOf hoi
  by_contra hcon
  have hxoi : x s d oi = true := by
    revert hcon
    cases x s d oi <;> simp
  have hij := huniq oi hlt hxoi
  subst hij
  rcases hcode with hcode | hcode
  · rw [hass, hcode] at hpd
    simp [SHIFT_OFF] at hpd
  · rw [hass, hcode] at hpd
    simp [SHIFT_PUBLIC_OFF] at hpd


theorem stage1Hard_split {input : SolverInput} {cs : List Constraint}
    {x : Assignment} (hx : Satisfies x (stage1Hard input cs)) :
    Satisfies x (addExactlyOneShiftPerDay input.staff_list input.num_days
      (stage1Shifts input)) ∧
    Satisfies x (addNightOffConstraint input.staff_list input.num_days
      (stage1Shifts input) input.night_shifts) ∧
    Satisfies x (stage1PrevHistoryConstraints input) ∧
    Satisfies x ((buildConstraints cs input.closed_days input.year input.month
      input.staff_list input.num_days (stage1Shifts input)
      input.night_shifts).1) := by
  unfold stage1Hard at hx
  rw [satisfies_append] at hx
  obtain ⟨hx, h7⟩ := hx
  rw [satisfies_append] at hx
  obtain ⟨hx, _⟩ := hx
  rw [satisfies_append] at hx
  obtain ⟨hx, h5⟩ := hx
  rw [satisfies_append] at hx
  obtain ⟨hx, h4⟩ := hx
  rw [satisfies_append] at hx
  obtain ⟨hx, _⟩ := hx
  rw [satisfies_append] at hx
  obtain ⟨h1, _⟩ := hx
  exact ⟨h1, h4, h5, h7⟩

theorem stage2Hard_split {input : SolverInput} {df : Stage1Df}
    {cs : List Constraint} {x : Assignment}
    (hx : Satisfies x (stage2Hard input df cs)) :
    Satisfies x (fixStage1Cells input df) ∧
    Satisfies x (fixEditedCells input) ∧
    Satisfies x (addExactlyOneShiftPerDay input.staff_list input.num_days
      (stage2AllShifts input)) ∧
    Satisfies x ((buildConstraints cs input.closed_days input.year input.month
      input.staff_list input.num_days (stage2AllShifts input)
      input.night_shifts).1) := by
  unfold stage2Hard at hx
  rw [satisfies_append] at hx
  obtain ⟨hx, h7⟩ := hx
  rw [satisfies_append] at hx
  obtain ⟨hx, _⟩ := hx
  rw [satisfies_append] at hx
  obtain ⟨hx, _⟩ := hx
  rw [satisfies_append] at hx
  obtain ⟨hx, _⟩ := hx
  rw [satisfies_append] at hx
  obtain ⟨hx, h3⟩ := hx
  rw [satisfies_append] at hx
  obtain ⟨h1, h2⟩ := hx
  exact ⟨h1, h2, h3, h7⟩

theorem exactlyOne_unique_shift {x : Assignment} {A s d : ℕ}
    (h : (List.range A).countP (fun k => x s d k) = 1) :
    ∃! k, k < A ∧ x s d k = true := by
  have hpos : 0 < (List.range A).countP (fun k => x s d k) := by omega
  obtain ⟨j, hjm, hpj⟩ := List.countP_pos_iff.mp hpos
  refine ⟨j, ⟨List.mem_range.mp hjm, hpj⟩, ?_⟩
  rintro i ⟨hi, hxi⟩
  exact countP_one_unique (List.nodup_range _) h
    (List.mem_range.mpr hi) hxi hjm hpj

theorem off_mem_stage1Shifts (input : SolverInput) :
    SHIFT_OFF ∈ stage1Shifts input := by
  unfold stage1Shifts
  exact List.mem_append.mpr (Or.inr (by simp))

theorem off_mem_stage2AllShifts (input : SolverInput) :
    SHIFT_OFF ∈ stage2AllShifts input := by
  unfold stage2AllShifts
  exact List.mem_append.mpr (Or.inr (by simp))

theorem offIndicesOf_ne_empty {all_shifts : List Shift}
    (hoff : SHIFT_OFF ∈ all_shifts) :
    (offIndicesOf all_shifts).isEmpty = false := by
  obtain ⟨k, hk, _, _⟩ := shiftToIdx_mem hoff
  unfold offIndicesOf
  rw [hk]
  cases h2 : shiftToIdx all_shifts SHIFT_PUBLIC_OFF with
  | none => rfl
  | some v => rfl

theorem rolling_window_bound_of_sat {x : Assignment} {c : Constraint}
    {staff_list : List StaffInfo} {num_days : ℕ} {all_shifts : List Shift}
    (hone : Satisfies x
      (addExactlyOneShiftPerDay staff_list num_days all_shifts))
    (hrw : Satisfies x
      (buildRollingWindowConstraint c staff_list num_days all_shifts))
    (hoffmem : SHIFT_OFF ∈ all_shifts) {W : ℕ}
    (hW : c.rule_definition.rule.max_consecutive_work_days = some W)
    {s d0 : ℕ} (hs : s < staff_list.length) (h1 : 1 ≤ d0)
    (h2 : d0 + W ≤ num_days) :
    (List.range' d0 (W + 1)).countP (fun d =>
      !(([SHIFT_OFF, SHIFT_PUBLIC_OFF] : List Shift).contains
        (assignedShift x all_shifts s d))) ≤ W := by
  have hb := sat_rollingWindow hrw hW (offIndicesOf_ne_empty hoffmem) hs h1 h2
  refine le_trans (workdays_le_offFalse ?_) hb
  intro d hd
  rw [List.mem_range'_1] at hd
  exact sat_exactlyOne hone hs (by omega) (by omega)

/-- Claim C1: every solve (Stage-1 and Stage-2 alike) posts the exactly-one
invariant, so any assignment satisfying the posted model gives each
(staff, day) cell of the current stage's alphabet exactly one true shift
variable — hence exactly one shift code. -/
theorem exactly_one_invariant :
    (∀ (input : SolverInput) (cs : List Constraint) (x : Assignment) (s d : ℕ),
      Satisfies x (stage1Hard input cs) → s < input.staff_list.length →
      1 ≤ d → d ≤ input.num_days →
      (List.range (stage1Shifts input).length).countP (fun k => x s d k) = 1 ∧
      ∃! k, k < (stage1Shifts input).length ∧ x s d k = true) ∧
    (∀ (input : SolverInput) (df : Stage1Df) (cs : List Constraint)
      (x : Assignment) (s d : ℕ),
      Satisfies x (stage2Hard input df cs) → s < input.staff_list.length →
      1 ≤ d → d ≤ input.num_days →
      (List.range (stage2AllShifts input).length).countP
        (fun k => x s d k) = 1 ∧
      ∃! k, k < (stage2AllShifts input).length ∧ x s d k = true) := by
  constructor
  · intro input cs x s d hx hs h1 h2
    have hone := sat_exactlyOne (stage1Hard_split hx).1 hs h1 h2
    exact ⟨hone, exactlyOne_unique_shift hone⟩
  · intro input df cs x s d hx hs h1 h2
    have hone := sat_exactlyOne (stage2Hard_split hx).2.2.1 hs h1 h2
    exact ⟨hone, exactlyOne_unique_shift hone⟩

theorem exactly_one_invariant_witness :
    ((List.range (stage1Shifts wInput).length).countP
        (fun k => wxOff 0 1 k) = 1 ∧
      ∃! k, k < (stage1Shifts wInput).length ∧ wxOff 0 1 k = true) ∧
    ((List.range (stage2AllShifts wInput).length).countP
        (fun k => wx2 0 1 k) = 1 ∧
      ∃! k, k < (stage2AllShifts wInput).length ∧ wx2 0 1 k = true) :=
  ⟨exactly_one_invariant.1 wInput [] wxOff 0 1
      (satisfies_of_all (by decide)) (by decide) (by decide) (by decide),
   exactly_one_invariant.2 wInput wDf [] wx2 0 1
      (satisfies_of_all (by decide)) (by decide) (by decide) (by decide)⟩

/-- Claim C3: in every Stage-1 result (for any rule list, including the empty
one — the night-then-off contract is posted unconditionally by setup), a
staff member assigned a night shift on day d < num_days is OFF on day
d + 1; in particular the claimed disjunction "OFF or the overridden
next_day_must_be set" holds through its first disjunct. -/
theorem night_then_off :
    ∀ (input : SolverInput) (cs : List Constraint) (x : Assignment),
      Satisfies x (stage1Hard input cs) →
      (stage1Shifts input).Nodup →
      ∀ s, s < input.staff_list.length →
      ∀ d, 1 ≤ d → d < input.num_days →
      assignedShift x (stage1Shifts input) s d ∈ input.night_shifts →
      assignedShift x (stage1Shifts input) s (d + 1) = SHIFT_OFF := by
  intro input cs x hx hnd s hs d h1 h2 hnight
  obtain ⟨honeS, hnoff, _, _⟩ := stage1Hard_split hx
  have h1d := sat_exactlyOne honeS hs h1 (le_of_lt h2)
  obtain ⟨j, hj, hxj, hass, huniq⟩ := assigned_spec h1d
  rw [hass] at hnight
  have hcodemem : (stage1Shifts input).getD j "" ∈ stage1Shifts input := by
    rw [List.getD_eq_getElem _ "" hj]
    exact List.getElem_mem hj
  obtain ⟨k, hksome, hklt, hkgetD⟩ := shiftToIdx_mem hcodemem
  have hkj : k = j := nodup_getD_inj hnd hklt hj hkgetD
  subst hkj
  have hnmem : k ∈ input.night_shifts.filterMap
      (fun ns => shiftToIdx (stage1Shifts input) ns) :=
    List.mem_filterMap.mpr ⟨(stage1Shifts input).getD k "", hnight, hksome⟩
  obtain ⟨oi, hoisome, hoilt, hoigetD⟩ :=
    shiftToIdx_mem (off_mem_stage1Shifts input)
  have hxoff := sat_nightOff hnoff hoisome hs h1 h2 hnmem hxj
  have h1d2 := sat_exactlyOne (d := d + 1) honeS hs (by omega) (by omega)
  rw [assignedShift_eq_of_true h1d2 hoilt hxoff]
  exact hoigetD

theorem night_then_off_witness :
    assignedShift wxNight (stage1Shifts wInput) 0 2 = SHIFT_OFF :=
  night_then_off wInput [] wxNight (satisfies_of_all (by decide)) (by decide)
    0 (by decide) 1 (by decide) (by decide) (by decide)

/-- Claim C4: for every enabled rolling_window rule with
max_consecutive_work_days = W, in each stage's results and every window
of W + 1 consecutive days inside [1, num_days], at most W days carry a
code other than OFF and PUB_OFF; the rule compiles to hard constraints
only (no penalty terms). -/
theorem rolling_window_cap :
    (∀ (input : SolverInput) (cs : List Constraint) (x : Assignment)
       (c : Constraint) (W : ℕ),
      Satisfies x (stage1Hard input cs) → c ∈ cs → c.is_enabled = true →
      c.rule_definition.type = "rolling_window" →
      c.rule_definition.rule.max_consecutive_work_days = some W →
      (buildOne c input.closed_days input.year input.month input.staff_list
        input.num_days (stage1Shifts input) input.night_shifts).2 = [] ∧
      ∀ s, s < input.staff_list.length →
      ∀ d0, 1 ≤ d0 → d0 + W ≤ input.num_days →
      (List.range' d0 (W + 1)).countP (fun d =>
        !(([SHIFT_OFF, SHIFT_PUBLIC_OFF] : List Shift).contains
          (assignedShift x (stage1Shifts input) s d))) ≤ W) ∧
    (∀ (input : SolverInput) (df : Stage1Df) (cs : List Constraint)
       (x : Assignment) (c : Constraint) (W : ℕ),
      Satisfies x (stage2Hard input df cs) → c ∈ cs → c.is_enabled = true →
      c.rule_definition.type = "rolling_window" →
      c.rule_definition.rule.max_consecutive_work_days = some W →
      (buildOne c input.closed_days input.year input.month input.staff_list
        input.num_days (stage2AllShifts input) input.night_shifts).2 = [] ∧
      ∀ s, s < input.staff_list.length →
      ∀ d0, 1 ≤ d0 → d0 + W ≤ input.num_days →
      (List.range' d0 (W + 1)).countP (fun d =>
        !(([SHIFT_OFF, SHIFT_PUBLIC_OFF] : List Shift).contains
          (assignedShift x (stage2AllShifts input) s d))) ≤ W) := by
  constructor
  · intro input cs x c W hx hc hen hty hW
    refine ⟨by rw [buildOne_rolling hen hty], ?_⟩
    intro s hs d0 h1 h2
    obtain ⟨hone, _, _, hbuild⟩ := stage1Hard_split hx
    have hrw : Satisfies x (buildRollingWindowConstraint c input.staff_list
        input.num_days (stage1Shifts input)) := by
      intro cc hcc
      refine hbuild cc (buildConstraints_hard_mem hc ?_)
      rw [buildOne_rolling hen hty]
      exact hcc
    exact rolling_window_bound_of_sat hone hrw (off_mem_stage1Shifts input)
      hW hs h1 h2
  · intro input df cs x c W hx hc hen hty hW
    refine ⟨by rw [buildOne_rolling hen hty], ?_⟩
    intro s hs d0 h1 h2
    obtain ⟨_, _, hone, hbuild⟩ := stage2Hard_split hx
    have hrw : Satisfies x (buildRollingWindowConstraint c input.staff_list
        input.num_days (stage2AllShifts input)) := by
      intro cc hcc
      refine hbuild cc (buildConstraints_hard_mem hc ?_)
      rw [buildOne_rolling hen hty]
      exact hcc
    exact rolling_window_bound_of_sat hone hrw (off_mem_stage2AllShifts input)
      hW hs h1 h2

theorem rolling_window_cap_witness :
    (List.range' 1 2).countP (fun d =>
      !(([SHIFT_OFF, SHIFT_PUBLIC_OFF] : List Shift).contains
        (assignedShift wxNight (stage1Shifts wInput) 0 d))) ≤ 1 ∧
    (List.range' 1 2).countP (fun d =>
      !(([SHIFT_OFF, SHIFT_PUBLIC_OFF] : List Shift).contains
        (assignedShift wx2 (stage2AllShifts wInput) 0 d))) ≤ 1 :=
  ⟨(rolling_window_cap.1 wInput [cRoll] wxNight cRoll 1
      (satisfies_of_all (by decide)) (List.mem_singleton.mpr rfl) rfl rfl
      rfl).2 0 (by decide) 1 (by decide) (by decide),
   (rolling_window_cap.2 wInput wDf [cRoll] wx2 cRoll 1
      (satisfies_of_all (by decide)) (List.mem_singleton.mpr rfl) rfl rfl
      rfl).2 0 (by decide) 1 (by decide) (by decide)⟩


theorem countP_add_countP_not {α : Type} {l : List α} (p : α → Bool) :
    l.countP p + l.countP (fun a => !(p a)) = l.length := by
  induction l with
  | nil => rfl
  | cons a t ih =>
    rw [List.countP_cons, List.countP_cons, List.length_cons]
    cases hpa : p a <;> simp [hpa] <;> omega

theorem mem_enum_fst_lt {α : Type} {l : List α} {si : ℕ × α}
    (h : si ∈ l.enum) : si.1 < l.length := by
  rw [List.mem_enum_iff_getElem?] at h
  rw [List.getElem?_eq_some] at h
  exact h.1

theorem nameToIdx_lt {staff_list : List StaffInfo} {nm : String} {i : ℕ}
    (h : nameToIdx staff_list nm = some i) : i < staff_list.length := by
  unfold nameToIdx dictGet at h
  rw [Option.map_eq_some'] at h
  obtain ⟨p, hp, hpi⟩ := h
  have hpm := List.mem_of_mem_getLast? hp
  have := (List.mem_filter.mp hpm).1
  obtain ⟨si, hsi, hsieq⟩ := List.mem_map.mp this
  have hlt := mem_enum_fst_lt hsi
  have : p.2 = si.1 := by rw [← hsieq]
  omega

/-- Claim C10: rows extracted from any assignment satisfying the exactly-one
invariant over an alphabet of non-empty codes have
off_count + work_count = num_days, and work_count counts exactly the
cells whose code is neither OFF nor PUB_OFF. -/
theorem extract_row_counts :
    ∀ (staff_list : List StaffInfo) (num_days : ℕ) (all_shifts : List Shift)
      (x : Assignment),
      Satisfies x (addExactlyOneShiftPerDay staff_list num_days all_shifts) →
      (∀ code ∈ all_shifts, code ≠ "") →
      ∀ row ∈ extractScheduleRows x staff_list num_days all_shifts,
        row.off_count + row.work_count = num_days ∧
        row.work_count = row.cells.countP (fun code =>
          !(([SHIFT_OFF, SHIFT_PUBLIC_OFF] : List Shift).contains code)) := by
  intro staff_list num_days all_shifts x hone hne row hrow
  unfold extractScheduleRows at hrow
  obtain ⟨si, hsi, heq⟩ := List.mem_map.mp hrow
  have hslt : si.1 < staff_list.length := mem_enum_fst_lt hsi
  have hday : ∀ d ∈ List.range' 1 num_days,
      assignedShift x all_shifts si.1 d ≠ "" := by
    intro d hd
    rw [List.mem_range'_1] at hd
    obtain ⟨j, hj, _, hass, _⟩ := assigned_spec
      (sat_exactlyOne (d := d) hone hslt (by omega) (by omega))
    rw [hass, List.getD_eq_getElem _ "" hj]
    exact hne _ (List.getElem_mem hj)
  have hwork : (List.range' 1 num_days).countP (fun d =>
      !(([SHIFT_OFF, SHIFT_PUBLIC_OFF] : List Shift).contains
        (assignedShift x all_shifts si.1 d)) &&
      assignedShift x all_shifts si.1 d != "") =
      (List.range' 1 num_days).countP (fun d =>
      !(([SHIFT_OFF, SHIFT_PUBLIC_OFF] : List Shift).contains
        (assignedShift x all_shifts si.1 d))) := by
    apply List.countP_congr
    intro d hd
    have hd2 := hday d hd
    simp [bne_iff_ne, hd2]
  subst heq
  constructor
  · show (List.range' 1 num_days).countP _ +
      (List.range' 1 num_days).countP _ = num_days
    rw [hwork]
    rw [countP_add_countP_not]
    exact List.length_range' 1 1 num_days
  · show (List.range' 1 num_days).countP _ =
      ((List.range' 1 num_days).map _).countP _
    rw [List.countP_map, hwork]
    rfl

theorem extract_row_counts_witness :
    ((extractScheduleRows wxOff3 [stA] 2 wShifts3).get
        ⟨0, by decide⟩).off_count +
      ((extractScheduleRows wxOff3 [stA] 2 wShifts3).get
        ⟨0, by decide⟩).work_count = 2 ∧
    ((extractScheduleRows wxOff3 [stA] 2 wShifts3).get
        ⟨0, by decide⟩).work_count =
      ((extractScheduleRows wxOff3 [stA] 2 wShifts3).get
        ⟨0, by decide⟩).cells.countP (fun code =>
          !(([SHIFT_OFF, SHIFT_PUBLIC_OFF] : List Shift).contains code)) :=
  extract_row_counts [stA] 2 wShifts3 wxOff3
    (satisfies_of_all (by decide)) (by decide)
    ((extractScheduleRows wxOff3 [stA] 2 wShifts3).get ⟨0, by decide⟩)
    (List.get_mem _ 0 (by decide))

/-- Claim C2: any assignment satisfying the Stage-2 model agrees with the
selected Stage-1 table on every cell carrying a value in
night_shifts ∪ {L1, OFF, PUB_OFF} that is a code of the Stage-2
alphabet, and with fixed_cells on every entry whose day is in
[1, num_days] and whose code is in the Stage-2 alphabet. -/
theorem stage2_pinning :
    ∀ (input : SolverInput) (df : Stage1Df) (cs : List Constraint)
      (x : Assignment),
      Satisfies x (stage2Hard input df cs) →
      (∀ row ∈ df, ∀ s_idx, nameToIdx input.staff_list row.1 = some s_idx →
        ∀ d shift k, 1 ≤ d → d ≤ input.num_days → row.2 d = some shift →
        shift ≠ "" →
        (input.night_shifts.contains shift ||
         (["L1", SHIFT_OFF, SHIFT_PUBLIC_OFF] : List Shift).contains shift)
          = true →
        shiftToIdx (stage2AllShifts input) shift = some k →
        x s_idx d k = true ∧
        assignedShift x (stage2AllShifts input) s_idx d = shift) ∧
      (∀ entry ∈ input.fixed_cells, ∀ s_idx,
        nameToIdx input.staff_list entry.1 = some s_idx →
        ∀ d shift k, (d, shift) ∈ entry.2 → 1 ≤ d → d ≤ input.num_days →
        shiftToIdx (stage2AllShifts input) shift = some k →
        x s_idx d k = true ∧
        assignedShift x (stage2AllShifts input) s_idx d = shift) := by
  intro input df cs x hx
  obtain ⟨hfix1, hfix2, hone, _⟩ := stage2Hard_split hx
  constructor
  · intro row hrow s_idx hname d shift k h1 h2 hval hne hfilter hidx
    have hmem : (fun y : Assignment => y s_idx d k) ∈
        fixStage1Cells input df := by
      unfold fixStage1Cells
      refine List.mem_flatMap.mpr ⟨row, hrow, ?_⟩
      rw [hname]
      refine List.mem_flatMap.mpr ⟨d, ?_, ?_⟩
      · rw [List.mem_range'_1]
        omega
      · rw [hval]
        show (fun y : Assignment => y s_idx d k) ∈
          (if shift != "" then _ else [])
        rw [if_pos (bne_iff_ne.mpr hne)]
        rw [hidx]
        show (fun y : Assignment => y s_idx d k) ∈
          (if (input.night_shifts.contains shift ||
            (["L1", SHIFT_OFF, SHIFT_PUBLIC_OFF] : List Shift).contains shift)
            = true then [fun y : Assignment => y s_idx d k] else [])
        rw [if_pos hfilter]
        exact List.mem_singleton.mpr rfl
    have hxk := hfix1 _ hmem
    have hklt := shiftToIdx_lt hidx
    refine ⟨hxk, ?_⟩
    rw [assignedShift_eq_of_true
      (sat_exactlyOne hone (nameToIdx_lt hname) h1 h2) hklt hxk]
    exact shiftToIdx_getD hidx
  · intro entry hentry s_idx hname d shift k hds h1 h2 hidx
    have hmem : (fun y : Assignment => y s_idx d k) ∈ fixEditedCells input := by
      unfold fixEditedCells
      refine List.mem_flatMap.mpr ⟨entry, hentry, ?_⟩
      rw [hname]
      refine List.mem_flatMap.mpr ⟨(d, shift), hds, ?_⟩
      rw [if_pos ⟨h1, h2⟩]
      rw [hidx]
      show (fun y : Assignment => y s_idx d k) ∈
        [fun y : Assignment => y s_idx d k]
      exact List.mem_singleton.mpr rfl
    have hxk := hfix2 _ hmem
    have hklt := shiftToIdx_lt hidx
    refine ⟨hxk, ?_⟩
    rw [assignedShift_eq_of_true
      (sat_exactlyOne hone (nameToIdx_lt hname) h1 h2) hklt hxk]
    exact shiftToIdx_getD hidx

theorem stage2_pinning_witness :
    (wx2 0 1 1 = true ∧
      assignedShift wx2 (stage2AllShifts wInput) 0 1 = "Q1") ∧
    (wx2 0 2 2 = true ∧
      assignedShift wx2 (stage2AllShifts wInput) 0 2 = "-") :=
  ⟨(stage2_pinning wInput wDf [] wx2 (satisfies_of_all (by decide))).1
      ("A", fun d => if d = 1 then some "Q1"
        else if d = 2 then some "-" else none)
      (List.mem_singleton.mpr rfl) 0 rfl 1 "Q1" 1 (by decide) (by decide)
      rfl (by decide) (by decide) rfl,
   (stage2_pinning wInput wDf [] wx2 (satisfies_of_all (by decide))).2
      ("A", [(2, "-")]) (List.mem_singleton.mpr rfl) 0 rfl 2 "-" 2
      (List.mem_singleton.mpr rfl) (by decide) (by decide) rfl⟩


theorem consecutiveWork_le_length (history : List Shift) :
    consecutiveWorkOfHistory history ≤ history.length := by
  unfold consecutiveWorkOfHistory
  suffices h : ∀ (l : List Shift) (acc : ℕ),
      l.foldl (fun acc h =>
        if ([SHIFT_OFF, SHIFT_PUBLIC_OFF, "", "-"] : List Shift).contains h
        then 0 else acc + 1) acc ≤ acc + l.length by
    simpa using h history 0
  intro l
  induction l with
  | nil =>
    intro acc
    simp
  | cons a t ih =>
    intro acc
    rw [List.foldl_cons, List.length_cons]
    by_cases hca :
        (([SHIFT_OFF, SHIFT_PUBLIC_OFF, "", "-"] : List Shift).contains a)
          = true
    · rw [if_pos hca]
      calc t.foldl _ 0 ≤ 0 + t.length := ih 0
        _ ≤ acc + (t.length + 1) := by omega
    · rw [if_neg hca]
      calc t.foldl _ (acc + 1) ≤ (acc + 1) + t.length := ih (acc + 1)
        _ = acc + (t.length + 1) := by omega

/-- Claim C7: for any assignment satisfying the Stage-1 model, a staff member
whose previous history ends with a night shift is forced onto OFF on day
1, and one whose history tail shows at least 5 consecutive worked
entries is likewise forced onto OFF on day 1. -/
theorem prev_history_forcing :
    ∀ (input : SolverInput) (cs : List Constraint) (x : Assignment),
      Satisfies x (stage1Hard input cs) →
      ∀ s_idx st, input.staff_list.get? s_idx = some st →
      ∀ history, (dictGet input.prev_history st.name).getD [] = history →
      ∀ oi, shiftToIdx (stage1Shifts input) SHIFT_OFF = some oi →
      (∀ h, history.getLast? = some h →
        input.night_shifts.contains h = true → x s_idx 1 oi = true) ∧
      (5 ≤ consecutiveWorkOfHistory history → x s_idx 1 oi = true) := by
  intro input cs x hx s_idx st hst history hhist oi hoi
  have hprev := (stage1Hard_split hx).2.2.1
  constructor
  · intro h hlast hnight
    have hnonempty : history ≠ [] := by
      intro hnil
      rw [hnil] at hlast
      cases hlast
    have hmem : (fun y : Assignment => y s_idx 1 oi) ∈
        stage1PrevHistoryConstraints input := by
      unfold stage1PrevHistoryConstraints
      refine List.mem_flatMap.mpr ⟨(s_idx, st), mem_enum_of_get hst, ?_⟩
      show (fun y : Assignment => y s_idx 1 oi) ∈
        (if ((dictGet input.prev_history st.name).getD []).isEmpty ||
            ((dictGet input.prev_history st.name).getD []).length < 1
          then [] else _)
      rw [hhist]
      rw [if_neg (by simp [hnonempty, List.length_pos.mpr hnonempty])]
      refine List.mem_append.mpr (Or.inl ?_)
      rw [hlast, hoi]
      show (fun y : Assignment => y s_idx 1 oi) ∈
        (if input.night_shifts.contains h = true
          then [fun y : Assignment => y s_idx 1 oi] else [])
      rw [if_pos hnight]
      exact List.mem_singleton.mpr rfl
    have := hprev _ hmem
    exact this
  · intro hcw
    have hlen : 5 ≤ history.length :=
      le_trans hcw (consecutiveWork_le_length history)
    have hnonempty : history ≠ [] := by
      intro hnil
      rw [hnil] at hlen
      simp at hlen
    have hmem : (fun y : Assignment => y s_idx 1 oi) ∈
        stage1PrevHistoryConstraints input := by
      unfold stage1PrevHistoryConstraints
      refine List.mem_flatMap.mpr ⟨(s_idx, st), mem_enum_of_get hst, ?_⟩
      show (fun y : Assignment => y s_idx 1 oi) ∈
        (if ((dictGet input.prev_history st.name).getD []).isEmpty ||
            ((dictGet input.prev_history st.name).getD []).length < 1
          then [] else _)
      rw [hhist]
      rw [if_neg (by simp [hnonempty, List.length_pos.mpr hnonempty])]
      refine List.mem_append.mpr (Or.inr ?_)
      rw [hoi]
      show (fun y : Assignment => y s_idx 1 oi) ∈
        (if 3 ≤ history.length ∧ 5 ≤ consecutiveWorkOfHistory history
          then [fun y : Assignment => y s_idx 1 oi] else [])
      rw [if_pos ⟨by omega, hcw⟩]
      exact List.mem_singleton.mpr rfl
    exact hprev _ hmem

theorem prev_history_forcing_witness :
    wxOff 0 1 2 = true ∧ wxOff 0 1 2 = true :=
  ⟨(prev_history_forcing wInput7 [] wxOff (satisfies_of_all (by decide))
      0 stA rfl ["Q1", "Q1", "Q1", "Q1", "Q1"] rfl 2 rfl).1
      "Q1" rfl (by decide),
   (prev_history_forcing wInput7 [] wxOff (satisfies_of_all (by decide))
      0 stA rfl ["Q1", "Q1", "Q1", "Q1", "Q1"] rfl 2 rfl).2 (by decide)⟩


theorem solveMulti_mem_sat (choose : List BConstraint → Option Assignment)
    (all_shifts : List Shift) (staff_list : List StaffInfo) (num_days : ℕ)
    (hsound : ∀ m y, choose m = some y → Satisfies y m) :
    ∀ (k : ℕ) (m : List BConstraint) (y : Assignment),
      y ∈ solveMultiModel choose all_shifts staff_list num_days m k →
      Satisfies y m := by
  intro k
  induction k with
  | zero =>
    intro m y hy
    simp [solveMultiModel] at hy
  | succ k ih =>
    intro m y hy
    rw [solveMultiModel] at hy
    cases hch : choose m with
    | none =>
      rw [hch] at hy
      cases hy
    | some x =>
      rw [hch] at hy
      rcases List.mem_cons.mp hy with h | h
      · subst h
        exact hsound m y hch
      · by_cases hk : k = 0
        · rw [if_pos hk] at h
          cases h
        · rw [if_neg hk] at h
          have hall := ih _ _ h
          exact fun c hc => hall c (List.mem_append.mpr (Or.inl hc))

theorem solveMulti_pairwise (choose : List BConstraint → Option Assignment)
    (all_shifts : List Shift) (staff_list : List StaffInfo) (num_days : ℕ)
    (hsound : ∀ m y, choose m = some y → Satisfies y m) :
    ∀ (k : ℕ) (m : List BConstraint),
      (solveMultiModel choose all_shifts staff_list num_days m k).Pairwise
        (fun a b =>
          addNogoodCut a all_shifts staff_list num_days b = true) := by
  intro k
  induction k with
  | zero =>
    intro m
    simp [solveMultiModel]
  | succ k ih =>
    intro m
    rw [solveMultiModel]
    cases hch : choose m with
    | none => exact List.Pairwise.nil
    | some x =>
      refine List.pairwise_cons.mpr ⟨?_, ?_⟩
      · intro b hb
        by_cases hk : k = 0
        · rw [if_pos hk] at hb
          cases hb
        · rw [if_neg hk] at hb
          have hsat := solveMulti_mem_sat choose all_shifts staff_list
            num_days hsound k _ b hb
          exact hsat _
            (List.mem_append.mpr (Or.inr (List.mem_singleton.mpr rfl)))
      · by_cases hk : k = 0
        · rw [if_pos hk]
          exact List.Pairwise.nil
        · rw [if_neg hk]
          exact ih _

theorem addNogoodCut_false_iff {v y : Assignment} {all_shifts : List Shift}
    {staff_list : List StaffInfo} {num_days : ℕ} :
    addNogoodCut v all_shifts staff_list num_days y = false ↔
      (∀ s, s < staff_list.length → ∀ d, 1 ≤ d → d ≤ num_days →
        ∀ k, k < all_shifts.length → y s d k = v s d k) := by
  unfold addNogoodCut
  constructor
  · intro h s hs d h1 h2 k hk
    have hall : (List.range staff_list.length).all (fun s =>
        (List.range' 1 num_days).all (fun d =>
          (List.range all_shifts.length).all
            (fun k => y s d k == v s d k))) = true := by
      cases hmain : (List.range staff_list.length).all (fun s =>
          (List.range' 1 num_days).all (fun d =>
            (List.range all_shifts.length).all
              (fun k => y s d k == v s d k)))
      · rw [hmain] at h
        cases h
      · rfl
    have h1a := List.all_eq_true.mp hall s (List.mem_range.mpr hs)
    have h2a := List.all_eq_true.mp h1a d (by rw [List.mem_range'_1]; omega)
    have h3a := List.all_eq_true.mp h2a k (List.mem_range.mpr hk)
    exact beq_iff_eq.mp h3a
  · intro h
    have hall : (List.range staff_list.length).all (fun s =>
        (List.range' 1 num_days).all (fun d =>
          (List.range all_shifts.length).all
            (fun k => y s d k == v s d k))) = true := by
      rw [List.all_eq_true]
      intro s hs
      rw [List.all_eq_true]
      intro d hd
      rw [List.all_eq_true]
      intro k hk
      rw [List.mem_range'_1] at hd
      exact beq_iff_eq.mpr (h s (List.mem_range.mp hs) d (by omega) (by omega)
        k (List.mem_range.mp hk))
    rw [hall]
    rfl

theorem addNogoodCut_true_exists {v y : Assignment} {all_shifts : List Shift}
    {staff_list : List StaffInfo} {num_days : ℕ}
    (h : addNogoodCut v all_shifts staff_list num_days y = true) :
    ∃ s d k, s < staff_list.length ∧ 1 ≤ d ∧ d ≤ num_days ∧
      k < all_shifts.length ∧ y s d k ≠ v s d k := by
  by_contra hcon
  push_neg at hcon
  have hfalse : addNogoodCut v all_shifts staff_list num_days y = false :=
    addNogoodCut_false_iff.mpr (fun s hs d h1 h2 k hk =>
      hcon s d k hs h1 h2 hk)
  rw [hfalse] at h
  cases h

theorem assigned_ne_of_grid_ne {a b : Assignment} {all_shifts : List Shift}
    (hnd : all_shifts.Nodup) {s d k : ℕ}
    (honea : (List.range all_shifts.length).countP (fun j => a s d j) = 1)
    (honeb : (List.range all_shifts.length).countP (fun j => b s d j) = 1)
    (hk : k < all_shifts.length) (hne : a s d k ≠ b s d k) :
    assignedShift a all_shifts s d ≠ assignedShift b all_shifts s d := by
  obtain ⟨ja, hja, hxa, hassa, huna⟩ := assigned_spec honea
  obtain ⟨jb, hjb, hxb, hassb, hunb⟩ := assigned_spec honeb
  rw [hassa, hassb]
  intro heq
  have hjeq : ja = jb := nodup_getD_inj hnd hja hjb heq
  subst hjeq
  apply hne
  cases hva : a s d k with
  | true =>
    have hkj := huna k hk hva
    subst hkj
    rw [hxb]
  | false =>
    cases hvb : b s d k with
    | true =>
      have hkj := hunb k hk hvb
      subst hkj
      exact absurd hxa (by rw [hva]; exact Bool.false_ne_true)
    | false => rfl

/-- Claim C5: a K-best enumeration driven by any sound solver oracle returns
pairwise distinct assignments — any two results differ in some
(staff, day) cell of the stage grid — and the no-good cut posted for a
found solution excludes exactly that solution: it evaluates false on an
assignment iff the assignment matches the solution on all grid cells. -/
theorem kbest_distinct :
    ∀ (choose : List BConstraint → Option Assignment)
      (all_shifts : List Shift) (staff_list : List StaffInfo)
      (num_days : ℕ) (base : List BConstraint) (k : ℕ),
      (∀ m y, choose m = some y → Satisfies y m) →
      (∀ cc ∈ addExactlyOneShiftPerDay staff_list num_days all_shifts,
        cc ∈ base) →
      all_shifts.Nodup →
      (∀ (i j : Fin (solveMultiModel choose all_shifts staff_list num_days
          base k).length), i.1 ≠ j.1 →
        ∃ s d, s < staff_list.length ∧ 1 ≤ d ∧ d ≤ num_days ∧
          assignedShift ((solveMultiModel choose all_shifts staff_list
            num_days base k).get i) all_shifts s d ≠
          assignedShift ((solveMultiModel choose all_shifts staff_list
            num_days base k).get j) all_shifts s d) ∧
      (∀ v y : Assignment,
        addNogoodCut v all_shifts staff_list num_days y = false ↔
        (∀ s, s < staff_list.length → ∀ d, 1 ≤ d → d ≤ num_days →
          ∀ kk, kk < all_shifts.length → y s d kk = v s d kk)) := by
  intro choose all_shifts staff_list num_days base k hsound hbase hnd
  have hkey : ∀ (i j : Fin (solveMultiModel choose all_shifts staff_list
      num_days base k).length), i.1 < j.1 →
      ∃ s d, s < staff_list.length ∧ 1 ≤ d ∧ d ≤ num_days ∧
        assignedShift ((solveMultiModel choose all_shifts staff_list
          num_days base k).get j) all_shifts s d ≠
        assignedShift ((solveMultiModel choose all_shifts staff_list
          num_days base k).get i) all_shifts s d := by
    intro i j hij
    have hpw := solveMulti_pairwise choose all_shifts staff_list num_days
      hsound k base
    have hcut := List.pairwise_iff_get.mp hpw i j hij
    obtain ⟨s, d, kk, hs, h1, h2, hkk, hne⟩ := addNogoodCut_true_exists hcut
    have hsat_i : Satisfies ((solveMultiModel choose all_shifts staff_list
        num_days base k).get i) base :=
      solveMulti_mem_sat choose all_shifts staff_list num_days hsound k base _
        (List.get_mem _ i.1 i.2)
    have hsat_j : Satisfies ((solveMultiModel choose all_shifts staff_list
        num_days base k).get j) base :=
      solveMulti_mem_sat choose all_shifts staff_list num_days hsound k base _
        (List.get_mem _ j.1 j.2)
    have honei := sat_exactlyOne (d := d)
      (fun cc hcc => hsat_i cc (hbase cc hcc)) hs h1 h2
    have honej := sat_exactlyOne (d := d)
      (fun cc hcc => hsat_j cc (hbase cc hcc)) hs h1 h2
    exact ⟨s, d, hs, h1, h2, assigned_ne_of_grid_ne hnd honej honei hkk hne⟩
  refine ⟨?_, fun v y => addNogoodCut_false_iff⟩
  intro i j hij
  rcases Nat.lt_or_ge i.1 j.1 with hlt | hge
  · obtain ⟨s, d, hs, h1, h2, hne⟩ := hkey i j hlt
    exact ⟨s, d, hs, h1, h2, hne.symm⟩
  · have hlt2 : j.1 < i.1 := by omega
    obtain ⟨s, d, hs, h1, h2, hne⟩ := hkey j i hlt2
    exact ⟨s, d, hs, h1, h2, hne⟩


theorem kbest_distinct_witness :
    (∃ s d, s < ([stA] : List StaffInfo).length ∧ 1 ≤ d ∧ d ≤ 1 ∧
      assignedShift ((solveMultiModel chooseW wAll5 [stA] 1
        (addExactlyOneShiftPerDay [stA] 1 wAll5) 2).get ⟨0, by decide⟩)
        wAll5 s d ≠
      assignedShift ((solveMultiModel chooseW wAll5 [stA] 1
        (addExactlyOneShiftPerDay [stA] 1 wAll5) 2).get ⟨1, by decide⟩)
        wAll5 s d) ∧
    (addNogoodCut wSA wAll5 [stA] 1 wSB = false ↔
      (∀ s, s < ([stA] : List StaffInfo).length → ∀ d, 1 ≤ d → d ≤ 1 →
        ∀ kk, kk < wAll5.length → wSB s d kk = wSA s d kk)) :=
  ⟨(kbest_distinct chooseW wAll5 [stA] 1
      (addExactlyOneShiftPerDay [stA] 1 wAll5) 2
      (by
        intro m y h
        unfold chooseW at h
        split_ifs at h with h1 h2
        · cases h
          exact satisfies_of_all h1
        · cases h
          exact satisfies_of_all h2)
      (fun cc hcc => hcc) (by decide)).1 ⟨0, by decide⟩ ⟨1, by decide⟩
      (by decide),
   (kbest_distinct chooseW wAll5 [stA] 1
      (addExactlyOneShiftPerDay [stA] 1 wAll5) 2
      (by
        intro m y h
        unfold chooseW at h
        split_ifs at h with h1 h2
        · cases h
          exact satisfies_of_all h1
        · cases h
          exact satisfies_of_all h2)
      (fun cc hcc => hcc) (by decide)).2 wSA wSB⟩


/-- Claim C6 counterexample: compiling a preference rule with
maximize_request_satisfaction = true and weight 12345 produces no
constraints and no penalty terms at all — in particular no reified miss
boolean weighted by the rule's weight exists in the compiler output. -/
theorem preference_rule_noop_counterexample :
    buildOne cPref [] 2025 1 [stA] 2 wShifts3 [] = ([], []) ∧
    ¬ ∃ p ∈ (buildOne cPref [] 2025 1 [stA] 2 wShifts3 []).2,
      p.2 = 12345 := by
  refine ⟨rfl, ?_⟩
  rintro ⟨p, hp, _⟩
  rw [show (buildOne cPref [] 2025 1 [stA] 2 wShifts3 []).2 = []
    from rfl] at hp
  cases hp

/-- Claim C6 amended: the rule compiler ignores maximize_request_satisfaction
(a preference rule without the weekend key compiles to nothing); the
reified per-request miss booleans miss = 1 ⇔ x[s,d,k] = 0 are instead
introduced by the stage drivers — add_request_soft_constraints with its
weight parameter (Stage-1 passes 50000), and Stage-2's day-shift request
handler with the fixed weight 40000 — independent of the rule's
weight. -/
theorem request_miss_via_stage_drivers :
    (∀ (c : Constraint) (closed_days : List ℕ) (year month : ℕ)
       (staff_list : List StaffInfo) (num_days : ℕ)
       (all_shifts night_shifts : List Shift),
      c.rule_definition.type = "preference" →
      c.rule_definition.rule.prefer_full_weekend_off_or_work = false →
      buildOne c closed_days year month staff_list num_days all_shifts
        night_shifts = ([], [])) ∧
    (∀ (staff_list : List StaffInfo) (num_days : ℕ) (all_shifts : List Shift)
       (requests : List (String × List (ℕ × Shift))) (weight : ℕ)
       (s_idx : ℕ) (st : StaffInfo) (d : ℕ) (req : Shift) (k : ℕ),
      staff_list.get? s_idx = some st →
      (d, req) ∈ (dictGet requests st.name).getD [] →
      1 ≤ d → d ≤ num_days →
      shiftToIdx all_shifts req = some k →
      ∃ p ∈ addRequestSoftConstraints staff_list num_days all_shifts
        requests weight, p.2 = weight ∧
        ∀ x, p.1 x = (if x s_idx d k then 0 else 1)) ∧
    (∀ (input : SolverInput) (s_idx : ℕ) (st : StaffInfo) (d : ℕ)
       (req : Shift) (k : ℕ),
      input.staff_list.get? s_idx = some st →
      (d, req) ∈ (dictGet input.requests st.name).getD [] →
      1 ≤ d → d ≤ input.num_days →
      input.day_shifts.contains req = true →
      shiftToIdx (stage2AllShifts input) req = some k →
      ∃ p ∈ stage2DayShiftRequestPenalties input, p.2 = 40000 ∧
        ∀ x, p.1 x = (if x s_idx d k then 0 else 1)) := by
  refine ⟨?_, ?_, ?_⟩
  · intro c closed_days year month staff_list num_days all_shifts night_shifts
      hty hwk
    unfold buildOne
    cases hen : c.is_enabled with
    | false => rfl
    | true =>
      rw [hty]
      show ([], buildPreferenceConstraint c year month staff_list num_days
        all_shifts (if c.is_soft = true then some c.penalty_weight
          else none)) = ([], [])
      unfold buildPreferenceConstraint
      rw [hwk]
      rfl
  · intro staff_list num_days all_shifts requests weight s_idx st d req k
      hst hdr h1 h2 hidx
    refine ⟨((fun x => if x s_idx d k then 0 else 1), weight), ?_, rfl,
      fun x => rfl⟩
    unfold addRequestSoftConstraints
    refine List.mem_flatMap.mpr ⟨(s_idx, st), mem_enum_of_get hst, ?_⟩
    refine List.mem_flatMap.mpr ⟨(d, req), hdr, ?_⟩
    rw [if_pos ⟨h1, h2⟩]
    rw [hidx]
    show _ ∈ [((fun x : Assignment => if x s_idx d k then 0 else 1), weight)]
    exact List.mem_singleton.mpr rfl
  · intro input s_idx st d req k hst hdr h1 h2 hday hidx
    refine ⟨((fun x => if x s_idx d k then 0 else 1), 40000), ?_, rfl,
      fun x => rfl⟩
    unfold stage2DayShiftRequestPenalties
    refine List.mem_flatMap.mpr ⟨(s_idx, st), mem_enum_of_get hst, ?_⟩
    refine List.mem_flatMap.mpr ⟨(d, req), hdr, ?_⟩
    rw [if_pos ⟨h1, h2⟩]
    show _ ∈ (if input.day_shifts.contains req = true then _ else [])
    rw [if_pos hday]
    rw [hidx]
    show _ ∈ [((fun x : Assignment => if x s_idx d k then 0 else 1), 40000)]
    exact List.mem_singleton.mpr rfl

theorem request_miss_via_stage_drivers_witness :
    (buildOne cPref [] 2025 1 [stA] 2 wShifts3 [] = ([], [])) ∧
    (∃ p ∈ addRequestSoftConstraints [stA] 2 (stage1Shifts wInput)
        wInput.requests 50000, p.2 = 50000 ∧
        ∀ x, p.1 x = (if x 0 1 0 then 0 else 1)) ∧
    (∃ p ∈ stage2DayShiftRequestPenalties wInput6, p.2 = 40000 ∧
        ∀ x, p.1 x = (if x 0 1 0 then 0 else 1)) :=
  ⟨request_miss_via_stage_drivers.1 cPref [] 2025 1 [stA] 2 wShifts3 []
      rfl rfl,
   request_miss_via_stage_drivers.2.1 [stA] 2 (stage1Shifts wInput)
      wInput.requests 50000 0 stA 1 "Q1" 0 rfl (by decide) (by decide)
      (by decide) rfl,
   request_miss_via_stage_drivers.2.2 wInput6 0 stA 1 "D1" 0 rfl
      (by decide) (by decide) (by decide) (by decide) rfl⟩


/-- Claim C8 counterexample: cBal (soft, weight 20000, balance_shifts = ["Q1"],
no skill filter) over a single-staff problem whose alphabet contains
"Q1": the eligible set is {0}, yet compiling the rule adds no objective
term at all — the claimed per-eligible-staff term is absent whenever
fewer than two staff are eligible. -/
theorem shift_balance_counterexample :
    eligibleStaffIdx [stA] none = [0] ∧
    (buildOne cBal [] 2025 1 [stA] 2 wShifts3 []).2 = [] ∧
    ¬ ∃ p ∈ (buildOne cBal [] 2025 1 [stA] 2 wShifts3 []).2,
      p.2 = 20000 / ([0] : List ℕ).length := by
  refine ⟨rfl, rfl, ?_⟩
  rintro ⟨p, hp, _⟩
  rw [show (buildOne cBal [] 2025 1 [stA] 2 wShifts3 []).2 = []
    from rfl] at hp
  cases hp

theorem addShiftBalance_mem (staff_list : List StaffInfo) (num_days : ℕ)
    (all_shifts : List Shift) (L : List Shift) (skill_filter : Option String)
    (w : ℕ)
    (hbi : L.filterMap (fun sh => shiftToIdx all_shifts sh) ≠ [])
    (helig : 2 ≤ (eligibleStaffIdx staff_list skill_filter).length)
    {s : ℕ} (hs : s ∈ eligibleStaffIdx staff_list skill_filter) :
    ∃ p ∈ addShiftBalance staff_list num_days all_shifts L skill_filter w,
      p.2 = w / (eligibleStaffIdx staff_list skill_filter).length ∧
      ∀ x, p.1 x = Int.natAbs
        ((shiftCountExpr (L.filterMap (fun sh => shiftToIdx all_shifts sh))
            num_days s x : ℤ) *
          ((eligibleStaffIdx staff_list skill_filter).length : ℤ) -
         (((eligibleStaffIdx staff_list skill_filter).map (fun t =>
           shiftCountExpr (L.filterMap (fun sh => shiftToIdx all_shifts sh))
             num_days t x)).sum : ℤ)) := by
  refine ⟨((fun x => Int.natAbs
      ((shiftCountExpr (L.filterMap (fun sh => shiftToIdx all_shifts sh))
          num_days s x : ℤ) *
        ((eligibleStaffIdx staff_list skill_filter).length : ℤ) -
       (((eligibleStaffIdx staff_list skill_filter).map (fun t =>
         shiftCountExpr (L.filterMap (fun sh => shiftToIdx all_shifts sh))
           num_days t x)).sum : ℤ))),
      w / (eligibleStaffIdx staff_list skill_filter).length), ?_, rfl,
    fun x => rfl⟩
  unfold addShiftBalance
  rw [if_neg (fun hh => hbi (List.isEmpty_iff.mp hh))]
  rw [if_neg (by omega)]
  refine List.mem_map.mpr ⟨s, hs, ?_⟩
  rfl

/-- Claim C8 amended: for an enabled soft balance rule with nonzero weight w
and balance_shifts = L, provided some code of L occurs in the current
alphabet and at least two staff are eligible (staff with the filter
skill, or all staff when the filter is unset), the compiler adds for
each eligible s the objective term (w / |E|) · |c[s] · |E| − Σ c[·]| —
integer division on the weight and no division of the deviation.  With
fewer than two eligible staff, or no balanced code in the alphabet, the
rule adds nothing (see the counterexample). -/
theorem shift_balance_terms :
    ∀ (c : Constraint) (closed_days : List ℕ) (year month : ℕ)
      (staff_list : List StaffInfo) (num_days : ℕ)
      (all_shifts night_shifts : List Shift) (L : List Shift) (w : ℕ),
      c.is_enabled = true → c.constraint_type = "soft" →
      c.penalty_weight = w → w ≠ 0 →
      c.rule_definition.type = "balance" →
      c.rule_definition.rule.balance_shifts = some L →
      L.filterMap (fun sh => shiftToIdx all_shifts sh) ≠ [] →
      2 ≤ (eligibleStaffIdx staff_list
        c.rule_definition.rule.among_staff_with_skill).length →
      ∀ s ∈ eligibleStaffIdx staff_list
        c.rule_definition.rule.among_staff_with_skill,
      ∃ p ∈ (buildOne c closed_days year month staff_list num_days
        all_shifts night_shifts).2,
        p.2 = w / (eligibleStaffIdx staff_list
          c.rule_definition.rule.among_staff_with_skill).length ∧
        ∀ x, p.1 x = Int.natAbs
          ((shiftCountExpr (L.filterMap (fun sh => shiftToIdx all_shifts sh))
              num_days s x : ℤ) *
            ((eligibleStaffIdx staff_list
              c.rule_definition.rule.among_staff_with_skill).length : ℤ) -
           (((eligibleStaffIdx staff_list
              c.rule_definition.rule.among_staff_with_skill).map (fun t =>
             shiftCountExpr
               (L.filterMap (fun sh => shiftToIdx all_shifts sh))
               num_days t x)).sum : ℤ)) := by
  intro c closed_days year month staff_list num_days all_shifts night_shifts
    L w hen hsoft hpw hw0 hty hbs hbi helig s hs
  have hLne : L ≠ [] := by
    intro hnil
    apply hbi
    rw [hnil]
    rfl
  have hissoft : c.is_soft = true := by
    unfold Constraint.is_soft
    rw [hsoft]
    rfl
  have hbo : (buildOne c closed_days year month staff_list num_days
      all_shifts night_shifts).2 =
      buildBalanceConstraint c year month staff_list num_days all_shifts
        (some w) := by
    unfold buildOne
    rw [hen, hty, hissoft, hpw]
    rfl
  rw [hbo]
  have hwor : weightOr (some w) 20000 = w := by
    show (if w = 0 then 20000 else w) = w
    rw [if_neg hw0]
  have hmid : (if listTruthy c.rule_definition.rule.balance_shifts then
      addShiftBalance staff_list num_days all_shifts
        (c.rule_definition.rule.balance_shifts.getD [])
        c.rule_definition.rule.among_staff_with_skill
        (weightOr (some w) 20000)
    else []) =
      addShiftBalance staff_list num_days all_shifts L
        c.rule_definition.rule.among_staff_with_skill w := by
    rw [hbs, hwor]
    rw [if_pos (show listTruthy (some L) = true by
      show (!L.isEmpty) = true
      cases hLe : L.isEmpty
      · rfl
      · exact absurd (List.isEmpty_iff.mp hLe) hLne)]
    rw [Option.getD_some]
  obtain ⟨p, hp, hp2, hp1⟩ := addShiftBalance_mem staff_list num_days
    all_shifts L c.rule_definition.rule.among_staff_with_skill w
    hbi helig hs
  refine ⟨p, ?_, hp2, hp1⟩
  unfold buildBalanceConstraint
  refine List.mem_append.mpr (Or.inl (List.mem_append.mpr (Or.inr ?_)))
  rw [hmid]
  exact hp

theorem shift_balance_terms_witness :
    ∃ p ∈ (buildOne cBal [] 2025 1 [stA, stB] 2 wShifts3 []).2,
      p.2 = 20000 / (eligibleStaffIdx [stA, stB] none).length ∧
      ∀ x, p.1 x = Int.natAbs
        ((shiftCountExpr ((["Q1"] : List Shift).filterMap
            (fun sh => shiftToIdx wShifts3 sh)) 2 0 x : ℤ) *
          ((eligibleStaffIdx [stA, stB] none).length : ℤ) -
         (((eligibleStaffIdx [stA, stB] none).map (fun t =>
           shiftCountExpr ((["Q1"] : List Shift).filterMap
             (fun sh => shiftToIdx wShifts3 sh)) 2 t x)).sum : ℤ)) :=
  shift_balance_terms cBal [] 2025 1 [stA, stB] 2 wShifts3 [] ["Q1"] 20000
    rfl rfl rfl (by decide) rfl rfl (by decide) (by decide) 0 (by decide)


/-- Claim C9: a coverage rule declared soft whose penalty_weight is 0 compiles
through the falsy-weight branch: no penalty term is added and the
constraint is posted hard — min_staff_per_day M yields work_d ≥ M on
every day, and shift_code K with exactly_per_day N yields n_d = N on
every day — because the hard/soft dispatch tests the truthiness of the
weight, not the declared constraint_type. -/
theorem zero_weight_soft_coverage_is_hard :
    (∀ (c : Constraint) (closed_days : List ℕ) (year month : ℕ)
       (staff_list : List StaffInfo) (num_days : ℕ)
       (all_shifts night_shifts : List Shift) (M : ℕ),
      c.is_enabled = true → c.constraint_type = "soft" →
      c.penalty_weight = 0 →
      c.rule_definition.type = "coverage" →
      c.rule_definition.rule.min_staff_per_day = some M → M ≠ 0 →
      c.rule_definition.rule.shift_code = none →
      c.rule_definition.rule.on_closed_days = false →
      (buildOne c closed_days year month staff_list num_days all_shifts
        night_shifts).2 = [] ∧
      (∀ x, Satisfies x (buildOne c closed_days year month staff_list
        num_days all_shifts night_shifts).1 →
       ∀ d, 1 ≤ d → d ≤ num_days →
       ((c.rule_definition.rule.exclude_shifts.getD
          [SHIFT_OFF, SHIFT_PUBLIC_OFF]).filterMap
          (fun sh => shiftToIdx all_shifts sh)).isEmpty = false →
       M ≤ (List.range staff_list.length).countP (fun s =>
        ((c.rule_definition.rule.exclude_shifts.getD
          [SHIFT_OFF, SHIFT_PUBLIC_OFF]).filterMap
          (fun sh => shiftToIdx all_shifts sh)).all
          (fun ei => !(x s d ei))))) ∧
    (∀ (c : Constraint) (closed_days : List ℕ) (year month : ℕ)
       (staff_list : List StaffInfo) (num_days : ℕ)
       (all_shifts night_shifts : List Shift) (K : Shift) (N k : ℕ),
      c.is_enabled = true → c.constraint_type = "soft" →
      c.penalty_weight = 0 →
      c.rule_definition.type = "coverage" →
      c.rule_definition.rule.shift_code = some K → K ≠ "" →
      c.rule_definition.rule.exactly_per_day = some N → N ≠ 0 →
      c.rule_definition.rule.min_staff_per_day = none →
      c.rule_definition.rule.on_closed_days = false →
      shiftToIdx all_shifts K = some k →
      (buildOne c closed_days year month staff_list num_days all_shifts
        night_shifts).2 = [] ∧
      (∀ x, Satisfies x (buildOne c closed_days year month staff_list
        num_days all_shifts night_shifts).1 →
       ∀ d, 1 ≤ d → d ≤ num_days →
       (List.range staff_list.length).countP (fun s => x s d k) = N)) := by
  constructor
  · intro c closed_days year month staff_list num_days all_shifts night_shifts
      M hen hsoft hpw hty hmin hM0 hsc hoc
    have hissoft : c.is_soft = true := by
      unfold Constraint.is_soft
      rw [hsoft]
      rfl
    have hbo : buildOne c closed_days year month staff_list num_days
        all_shifts night_shifts =
        buildCoverageConstraint c closed_days staff_list num_days all_shifts
          night_shifts (some 0) := by
      unfold buildOne
      rw [hen, hty, hissoft, hpw]
      rfl
    have hcov : buildCoverageConstraint c closed_days staff_list num_days
        all_shifts night_shifts (some 0) =
        addMinCoverage staff_list num_days all_shifts M
          (c.rule_definition.rule.exclude_shifts.getD
            [SHIFT_OFF, SHIFT_PUBLIC_OFF]) (some 0) := by
      unfold buildCoverageConstraint
      dsimp only
      rw [hmin, hsc, hoc]
      show ((if natTruthy (some M) = true then
          addMinCoverage staff_list num_days all_shifts
            ((some M).getD 3)
            (c.rule_definition.rule.exclude_shifts.getD
              [SHIFT_OFF, SHIFT_PUBLIC_OFF]) (some 0)
        else ([], [])).1 ++ ([] : List BConstraint) ++
          ([] : List BConstraint),
        (if natTruthy (some M) = true then
          addMinCoverage staff_list num_days all_shifts
            ((some M).getD 3)
            (c.rule_definition.rule.exclude_shifts.getD
              [SHIFT_OFF, SHIFT_PUBLIC_OFF]) (some 0)
        else ([], [])).2 ++ ([] : List Penalty) ++ ([] : List Penalty)) = _
      rw [if_pos (show natTruthy (some M) = true by
        show (M != 0) = true
        exact bne_iff_ne.mpr hM0)]
      show ((addMinCoverage staff_list num_days all_shifts M
          (c.rule_definition.rule.exclude_shifts.getD
            [SHIFT_OFF, SHIFT_PUBLIC_OFF]) (some 0)).1 ++ [] ++ [],
        (addMinCoverage staff_list num_days all_shifts M
          (c.rule_definition.rule.exclude_shifts.getD
            [SHIFT_OFF, SHIFT_PUBLIC_OFF]) (some 0)).2 ++ [] ++ []) = _
      rw [List.append_nil, List.append_nil, List.append_nil,
        List.append_nil]
    have hhard : addMinCoverage staff_list num_days all_shifts M
        (c.rule_definition.rule.exclude_shifts.getD
          [SHIFT_OFF, SHIFT_PUBLIC_OFF]) (some 0) =
        ((List.range' 1 num_days).map (fun d =>
          fun x : Assignment =>
            if ((c.rule_definition.rule.exclude_shifts.getD
              [SHIFT_OFF, SHIFT_PUBLIC_OFF]).filterMap
              (fun sh => shiftToIdx all_shifts sh)).isEmpty then
              decide (M ≤ staff_list.length)
            else decide (M ≤ (List.range staff_list.length).countP (fun s =>
              ((c.rule_definition.rule.exclude_shifts.getD
                [SHIFT_OFF, SHIFT_PUBLIC_OFF]).filterMap
                (fun sh => shiftToIdx all_shifts sh)).all
                (fun ei => !(x s d ei))))), []) := by
      unfold addMinCoverage
      rw [if_neg (show ¬ natTruthy (some 0) = true by decide)]
    constructor
    · rw [hbo, hcov, hhard]
    · intro x hx d h1 h2 hexne
      have hmem : (fun x : Assignment =>
          if ((c.rule_definition.rule.exclude_shifts.getD
            [SHIFT_OFF, SHIFT_PUBLIC_OFF]).filterMap
            (fun sh => shiftToIdx all_shifts sh)).isEmpty then
            decide (M ≤ staff_list.length)
          else decide (M ≤ (List.range staff_list.length).countP (fun s =>
            ((c.rule_definition.rule.exclude_shifts.getD
              [SHIFT_OFF, SHIFT_PUBLIC_OFF]).filterMap
              (fun sh => shiftToIdx all_shifts sh)).all
              (fun ei => !(x s d ei))))) ∈
          (buildOne c closed_days year month staff_list num_days all_shifts
            night_shifts).1 := by
        rw [hbo, hcov, hhard]
        refine List.mem_map.mpr ⟨d, ?_, rfl⟩
        rw [List.mem_range'_1]
        omega
      have := hx _ hmem
      rw [if_neg (by simp [hexne])] at this
      exact of_decide_eq_true this
  · intro c closed_days year month staff_list num_days all_shifts night_shifts
      K N k hen hsoft hpw hty hsc hKne hexa hN0 hmin hoc hidx
    have hissoft : c.is_soft = true := by
      unfold Constraint.is_soft
      rw [hsoft]
      rfl
    have hbo : buildOne c closed_days year month staff_list num_days
        all_shifts night_shifts =
        buildCoverageConstraint c closed_days staff_list num_days all_shifts
          night_shifts (some 0) := by
      unfold buildOne
      rw [hen, hty, hissoft, hpw]
      rfl
    have hcov : buildCoverageConstraint c closed_days staff_list num_days
        all_shifts night_shifts (some 0) =
        addExactShiftCoverage staff_list num_days all_shifts K N (some 0) := by
      unfold buildCoverageConstraint
      dsimp only
      rw [hmin, hsc, hexa, hoc]
      show (([] : List BConstraint) ++
          (if (strTruthy (some K) && natTruthy (some N)) = true then
            addExactShiftCoverage staff_list num_days all_shifts
              ((some K).getD "") ((some N).getD 0) (some 0)
          else ([], [])).1 ++ ([] : List BConstraint),
        ([] : List Penalty) ++
          (if (strTruthy (some K) && natTruthy (some N)) = true then
            addExactShiftCoverage staff_list num_days all_shifts
              ((some K).getD "") ((some N).getD 0) (some 0)
          else ([], [])).2 ++ ([] : List Penalty)) = _
      rw [if_pos (show (strTruthy (some K) && natTruthy (some N)) = true by
        have h1 : strTruthy (some K) = true := bne_iff_ne.mpr hKne
        have h2 : natTruthy (some N) = true := bne_iff_ne.mpr hN0
        rw [h1, h2]
        rfl)]
      show (([] : List BConstraint) ++
          (addExactShiftCoverage staff_list num_days all_shifts K N
            (some 0)).1 ++ ([] : List BConstraint),
        ([] : List Penalty) ++
          (addExactShiftCoverage staff_list num_days all_shifts K N
            (some 0)).2 ++ ([] : List Penalty)) = _
      rw [List.nil_append, List.nil_append, List.append_nil,
        List.append_nil]
    have hhard : addExactShiftCoverage staff_list num_days all_shifts K N
        (some 0) =
        ((List.range' 1 num_days).map (fun d =>
          fun x : Assignment =>
            (List.range staff_list.length).countP (fun s => x s d k) == N),
          []) := by
      unfold addExactShiftCoverage
      rw [hidx]
      show (if natTruthy (some 0) = true then _ else _) = _
      rw [if_neg (show ¬ natTruthy (some 0) = true by decide)]
    constructor
    · rw [hbo, hcov, hhard]
    · intro x hx d h1 h2
      have hmem : (fun x : Assignment =>
          (List.range staff_list.length).countP (fun s => x s d k) == N) ∈
          (buildOne c closed_days year month staff_list num_days all_shifts
            night_shifts).1 := by
        rw [hbo, hcov, hhard]
        refine List.mem_map.mpr ⟨d, ?_, rfl⟩
        rw [List.mem_range'_1]
        omega
      have := hx _ hmem
      simpa using this

theorem zero_weight_soft_coverage_is_hard_witness :
    (1 ≤ (List.range ([stA] : List StaffInfo).length).countP (fun s =>
      ((cMin.rule_definition.rule.exclude_shifts.getD
        [SHIFT_OFF, SHIFT_PUBLIC_OFF]).filterMap
        (fun sh => shiftToIdx wShifts3 sh)).all
        (fun ei => !(wxQ s 1 ei)))) ∧
    ((List.range ([stA] : List StaffInfo).length).countP
      (fun s => wxQ s 1 0) = 1) :=
  ⟨(zero_weight_soft_coverage_is_hard.1 cMin [] 2025 1 [stA] 1 wShifts3 []
      1 rfl rfl rfl rfl rfl (by decide) rfl rfl).2 wxQ
      (satisfies_of_all (by decide)) 1 (by decide) (by decide) (by decide),
   (zero_weight_soft_coverage_is_hard.2 cExact [] 2025 1 [stA] 1 wShifts3 []
      "Q1" 1 0 rfl rfl rfl rfl rfl (by decide) rfl (by decide) rfl rfl
      rfl).2 wxQ (satisfies_of_all (by decide)) 1 (by decide) (by decide)⟩

end ShiftMaster
